import Mathlib

/-!
# Solar irradiance calculator: the estimation effect, the yearly filter and the CSV export

A shallow embedding of `src/SolarIrradianceCalculator.jsx`.

Modelling conventions.

* A JavaScript number is a `JSNumber`: a double given by its exact rational value, or one of
  `Infinity`, `-Infinity` and `NaN`.  Every arithmetic operation computes the exact result
  and rounds it to the nearest double, to the even significand on a tie (`roundDouble`),
  with 53 significant bits, gradual underflow below `2 ^ (-1022)` and overflow to an
  infinity from `2 ^ 1024`.  The two zeros are one value, `finite 0`: the sign of a zero
  shows only in a division by zero, and the one divisor of the source is the literal `100`.
* `Math.random()` is a global source of draws, each in `[0, 1)`.  It is embedded as a
  stream `ℕ → Draw` indexed by the number of calls made so far in the effect, threaded
  through the three generators in the order the source calls them.
* A thrown JavaScript exception is an `Except.error`.
-/

namespace SolarIrradianceCalculator

/-! ## Numbers -/

/-- A JavaScript number: a finite double, given by its value, `Infinity`, `-Infinity` or
`NaN`. -/
inductive JSNumber where
  | finite (value : ℚ)
  | posInf
  | negInf
  | nan
deriving DecidableEq

/-- The comparison `x <= y`: false when either side is `NaN`. -/
def JSNumber.le : JSNumber → JSNumber → Prop
  | .nan, _ => False
  | _, .nan => False
  | .negInf, _ => True
  | _, .posInf => True
  | .posInf, _ => False
  | _, .negInf => False
  | .finite a, .finite b => a ≤ b

instance : LE JSNumber := ⟨JSNumber.le⟩

/-- Rounding to the nearest integer, to the even one on a tie. -/
def roundHalfEven (x : ℚ) : ℤ :=
  if x - ⌊x⌋ < 1 / 2 then ⌊x⌋
  else if 1 / 2 < x - ⌊x⌋ then ⌊x⌋ + 1
  else if ⌊x⌋ % 2 = 0 then ⌊x⌋
  else ⌊x⌋ + 1

/-- The exponent of the unit in the last place of a double of magnitude `a`: 52 below the
exponent of `a`, and `-1074` for the subnormal range. -/
def ulpExponent (a : ℚ) : ℤ :=
  max (Int.log 2 a - 52) (-1074)

/-- A magnitude `a ≥ 0` rounded to a whole number of units in the last place. -/
def roundMagnitude (a : ℚ) : ℚ :=
  (roundHalfEven (a / 2 ^ ulpExponent a) : ℚ) * 2 ^ ulpExponent a

/-- The double nearest to the exact value `q`; a rounded magnitude of `2 ^ 1024` or more is
an infinity. -/
def roundDouble (q : ℚ) : JSNumber :=
  if q < 0 then
    if 2 ^ 1024 ≤ roundMagnitude (-q) then .negInf else .finite (-roundMagnitude (-q))
  else
    if 2 ^ 1024 ≤ roundMagnitude q then .posInf else .finite (roundMagnitude q)

/-- A decimal literal of the source text: the double nearest to it. -/
def lit (q : ℚ) : JSNumber := roundDouble q

/-- The product `x * y`. -/
def JSNumber.mul : JSNumber → JSNumber → JSNumber
  | .nan, _ => .nan
  | _, .nan => .nan
  | .finite a, .finite b => roundDouble (a * b)
  | .finite a, .posInf => if a = 0 then .nan else if a < 0 then .negInf else .posInf
  | .finite a, .negInf => if a = 0 then .nan else if a < 0 then .posInf else .negInf
  | .posInf, .finite b => if b = 0 then .nan else if b < 0 then .negInf else .posInf
  | .negInf, .finite b => if b = 0 then .nan else if b < 0 then .posInf else .negInf
  | .posInf, .posInf => .posInf
  | .posInf, .negInf => .negInf
  | .negInf, .posInf => .negInf
  | .negInf, .negInf => .posInf

/-- The sum `x + y`. -/
def JSNumber.add : JSNumber → JSNumber → JSNumber
  | .nan, _ => .nan
  | _, .nan => .nan
  | .finite a, .finite b => roundDouble (a + b)
  | .posInf, .negInf => .nan
  | .negInf, .posInf => .nan
  | .posInf, _ => .posInf
  | _, .posInf => .posInf
  | .negInf, _ => .negInf
  | _, .negInf => .negInf

/-- The quotient `x / y`; a zero divisor is `+0`. -/
def JSNumber.div : JSNumber → JSNumber → JSNumber
  | .nan, _ => .nan
  | _, .nan => .nan
  | .finite a, .finite b =>
    if b = 0 then (if a = 0 then .nan else if a < 0 then .negInf else .posInf)
    else roundDouble (a / b)
  | .finite _, .posInf => .finite 0
  | .finite _, .negInf => .finite 0
  | .posInf, .finite b => if b < 0 then .negInf else .posInf
  | .negInf, .finite b => if b < 0 then .posInf else .negInf
  | .posInf, .posInf => .nan
  | .posInf, .negInf => .nan
  | .negInf, .posInf => .nan
  | .negInf, .negInf => .nan

instance : Mul JSNumber := ⟨JSNumber.mul⟩

instance : Add JSNumber := ⟨JSNumber.add⟩

instance : Div JSNumber := ⟨JSNumber.div⟩

/-- The decimal that `toFixed(2)` prints for a finite `x` below `10 ^ 21` in size:
`n / 100` for the integer `n` with `n / 100` closest to `x`, the larger one on a tie, after
moving the sign of a negative `x` out. -/
def decimalRound (x : ℚ) : ℚ :=
  if x < 0 then -((⌊(-x) * 100 + 1 / 2⌋ : ℤ) : ℚ) / 100
  else ((⌊x * 100 + 1 / 2⌋ : ℤ) : ℚ) / 100

/-- The expression `+(x).toFixed(2)`.  `toFixed` prints `NaN` and the infinities as such
and a number of size `10 ^ 21` or more as `String(x)`, which the unary plus reads back as
`x`; any other number is printed as `decimalRound x`, and the unary plus reads that decimal
as the double nearest to it. -/
def toFixed2 : JSNumber → JSNumber
  | .nan => .nan
  | .posInf => .posInf
  | .negInf => .negInf
  | .finite x => if 10 ^ 21 ≤ |x| then .finite x else roundDouble (decimalRound x)

/-- The number `x` is `NaN`, or it is zero or negative when `s ≤ 0` and zero or positive
when `0 ≤ s`: the sign that exact arithmetic gives survives the rounding, an overflow and
an underflow. -/
def HasSign (x : JSNumber) (s : ℚ) : Prop :=
  x = JSNumber.nan ∨ ((s ≤ 0 → x ≤ JSNumber.finite 0) ∧ (0 ≤ s → JSNumber.finite 0 ≤ x))

/-! ## Data model -/

/-- One point of a series, `{ name, energy }`. -/
structure EnergyPoint where
  name : String
  energy : JSNumber
deriving DecidableEq

/-- One result of `Math.random()`: a number in `[0, 1)`. -/
structure Draw where
  val : ℚ
  nonneg : 0 ≤ val
  lt_one : val < 1

/-- The component state that the effect reads (lines 24-30). -/
structure Config where
  country : String
  month : String
  efficiency : JSNumber
  panelType : String
  years : JSNumber
  voltage : JSNumber
  current : JSNumber

/-- The constant `months` (lines 13-16). -/
def months : List String :=
  ["January", "February", "March", "April", "May", "June",
   "July", "August", "September", "October", "November", "December"]

/-- The object `daysInMonth` (lines 18-21); a key that is absent reads as `undefined`,
here `none`. -/
def daysInMonth (m : String) : Option ℕ :=
  if m = "January" then some 31
  else if m = "February" then some 28
  else if m = "March" then some 31
  else if m = "April" then some 30
  else if m = "May" then some 31
  else if m = "June" then some 30
  else if m = "July" then some 31
  else if m = "August" then some 31
  else if m = "September" then some 30
  else if m = "October" then some 31
  else if m = "November" then some 30
  else if m = "December" then some 31
  else none

/-- The call `Array.from({ length }, f)`: `f` applied to `0, 1, ..., length - 1` in order;
a `length` that is `undefined` gives the empty array. -/
def arrayFrom {α : Type} (length : Option ℕ) (f : ℕ → α) : List α :=
  (List.range (length.getD 0)).map f

/-! ## The effect (lines 36-66) -/

/-- The local `baseIrradiance` (line 37). -/
def baseIrradiance : JSNumber := lit 4

/-- The local `factor` (lines 38-40). -/
def factor (panelType : String) : JSNumber :=
  if panelType = "Monocrystalline" then lit 1
  else if panelType = "Polycrystalline" then lit 0.95
  else lit 0.9

/-- The local `dailyEnergy` (line 48). -/
def dailyEnergy (cfg : Config) : JSNumber :=
  baseIrradiance * (cfg.efficiency / lit 100) * cfg.voltage * cfg.current
    * factor cfg.panelType

/-- The local `hourlyData` (lines 42-45); the callback for hour `h` makes call number `h`
to `Math.random`. -/
def hourlyData (cfg : Config) (rand : ℕ → Draw) : List EnergyPoint :=
  arrayFrom (some 24) fun h =>
    { name := toString h ++ ":00"
      energy := toFixed2 (baseIrradiance * (cfg.efficiency / lit 100) * cfg.voltage
        * cfg.current * factor cfg.panelType
        * (JSNumber.finite (rand h).val * lit 0.2 + lit 0.9)) }

/-- The local `dailyResult` (lines 47-53); the 24 calls of `hourlyData` came before, so the
callback for index `idx` makes call number `24 + idx`. -/
def dailyResult (cfg : Config) (rand : ℕ → Draw) : List EnergyPoint :=
  arrayFrom (daysInMonth cfg.month) fun idx =>
    { name := "Day " ++ toString (idx + 1)
      energy := toFixed2 (dailyEnergy cfg
        * (JSNumber.finite (rand (24 + idx)).val * lit 0.3 + lit 0.85)) }

/-- The callback of `months.map` (lines 55-62) run over a list of month names, the next
call to `Math.random` being call number `call`.  For a name that is no key of
`daysInMonth`, `daysIn` is `undefined` and the product is `NaN`. -/
def yearlyFrom (cfg : Config) (rand : ℕ → Draw) : ℕ → List String → List EnergyPoint
  | _, [] => []
  | call, m :: ms =>
    let avgDaily := dailyEnergy cfg * (JSNumber.finite (rand call).val * lit 0.3 + lit 0.85)
    { name := m
      energy := match daysInMonth m with
        | some daysIn => toFixed2 (avgDaily * JSNumber.finite daysIn)
        | none => toFixed2 (avgDaily * JSNumber.nan) } :: yearlyFrom cfg rand (call + 1) ms

/-- The local `yearly` (lines 55-62): it runs after the 24 calls of `hourlyData` and the
`days` calls of `dailyResult`. -/
def yearly (cfg : Config) (rand : ℕ → Draw) : List EnergyPoint :=
  yearlyFrom cfg rand (24 + (daysInMonth cfg.month).getD 0) months

/-- The state written by the effect. -/
structure Series where
  yearlyData : List EnergyPoint
  dailyData : List EnergyPoint

/-- The effect (lines 36-66): `setYearlyData(yearly)` and
`setDailyData(dailyFilter === 'hourly' ? hourlyData : dailyResult)`. -/
def effect (cfg : Config) (dailyFilter : String) (rand : ℕ → Draw) : Series :=
  { yearlyData := yearly cfg rand
    dailyData := if dailyFilter = "hourly" then hourlyData cfg rand else dailyResult cfg rand }

/-! ## The yearly filter (lines 68-71) -/

/-- The value `filteredYearlyData` (lines 68-71). -/
def filteredYearlyData (yearlyData : List EnergyPoint) (yearlyFilter : String) :
    List EnergyPoint :=
  if yearlyFilter = "Overall" then yearlyData
  else yearlyData.filter fun d => d.name = yearlyFilter

/-! ## The export (lines 73-77) -/

/-- The call `xs.join(sep)` on an array of strings. -/
def join (xs : List String) (sep : String) : String :=
  sep.intercalate xs

/-- The text `csvContent` of `exportToCSV` (lines 74-77).  `numberToString` is the
conversion of a number to a string that `join` applies to `energy`.  On the empty array
`data[0]` is `undefined` and `Object.keys(undefined)` throws a `TypeError` before any text
is built. -/
def exportToCSV (numberToString : JSNumber → String) (data : List EnergyPoint) :
    Except String String :=
  match data with
  | [] => Except.error "TypeError: Cannot convert undefined or null to object"
  | _ :: _ =>
    Except.ok (join
      (join ["name", "energy"] "," ::
        data.map fun row => join [row.name, numberToString row.energy] ",")
      "\n")

/-- The call `text.split(sep)` with a separator of one character. -/
def split (text : String) (sep : Char) : List String :=
  (text.data.splitOn sep).map String.mk

/-- The text that JavaScript prints for a whole number of hundredths `n / 100` (below
`10 ^ 21` in size): the sign, the integer part and, when the fractional part is not zero,
a point and its one or two digits. -/
def hundredthsToString (n : ℤ) : String :=
  (if n < 0 then "-" else "") ++ toString (n.natAbs / 100) ++
    (if n.natAbs % 100 = 0 then ""
     else if n.natAbs % 10 = 0 then "." ++ toString (n.natAbs % 100 / 10)
     else "." ++ toString (n.natAbs % 100 / 10) ++ toString (n.natAbs % 10))

/-- The text printed for an energy value of a series.  A finite one is a result of
`toFixed2`, the double nearest to a whole number of hundredths, and is printed as that
decimal; the nearest hundredth stands for any other finite value. -/
def printEnergy : JSNumber → String
  | .nan => "NaN"
  | .posInf => "Infinity"
  | .negInf => "-Infinity"
  | .finite q => hundredthsToString ⌊q * 100 + 1 / 2⌋

/-! ## Examples of draws and configurations -/

/-- The draw `0`. -/
def drawZero : Draw := ⟨0, le_refl 0, by norm_num⟩

/-- The draw `1 / 2`. -/
def drawHalf : Draw := ⟨1 / 2, by norm_num, by norm_num⟩

/-- A stream of calls that all return `0`. -/
def zeroDraws : ℕ → Draw := fun _ => drawZero

/-- A stream of calls that return `0` and `1 / 2` in turn. -/
def alternatingDraws : ℕ → Draw := fun call => if call % 2 = 0 then drawZero else drawHalf

/-- The default configuration of the component (lines 24-30). -/
def defaultConfig : Config :=
  { country := "India", month := "January", efficiency := lit 18,
    panelType := "Monocrystalline", years := lit 1, voltage := lit 12, current := lit 5 }

/-- The scenario of the specification: February, 18 %, Monocrystalline, 12 V, 5 A. -/
def februaryConfig : Config := { defaultConfig with month := "February" }

/-- The default configuration with a Thin-Film panel. -/
def thinFilmConfig : Config := { defaultConfig with panelType := "Thin-Film" }

/-- A configuration with a negative efficiency and a negative voltage. -/
def negativeConfig : Config :=
  { defaultConfig with efficiency := lit (-18), voltage := lit (-12) }

/-- The default configuration with a negative voltage. -/
def negativeVoltageConfig : Config := { defaultConfig with voltage := lit (-12) }

/-- A configuration of non-negative numbers whose products overflow: efficiency 100, the
voltage `2 ^ 1023` (typed as `8.98846567431158e307`) and current 0. -/
def overflowConfig : Config :=
  { defaultConfig with
      efficiency := lit 100, voltage := JSNumber.finite (2 ^ 1023), current := lit 0 }

/-- The configuration 18 %, Polycrystalline, 5 V, 5 A, whose nominal daily energy is the
double `17.099999999999998`. -/
def polyConfig : Config :=
  { defaultConfig with panelType := "Polycrystalline", voltage := lit 5 }

/-- The configuration 25 %, Monocrystalline, 1 V, 0.5 A, whose nominal daily energy is
exactly `0.5`. -/
def quarterConfig : Config :=
  { defaultConfig with efficiency := lit 25, voltage := lit 1, current := lit 0.5 }

/-- The configuration 19 %, Polycrystalline, 15 V, 5 A. -/
def hourlyPolyConfig : Config :=
  { defaultConfig with
      efficiency := lit 19, panelType := "Polycrystalline", voltage := lit 15 }

/-- The configuration 18 %, Polycrystalline, -5 V, 5 A. -/
def negativePolyConfig : Config := { polyConfig with voltage := lit (-5) }

/-- A yearly view of two points, as a series to export. -/
def sampleSeries : List EnergyPoint :=
  [⟨"January", lit 1138.32⟩, ⟨"February", lit 1209.6⟩]

/-! ## The vocabulary of the specification -/

/-- The three panel types offered by the form (lines 123-125). -/
inductive PanelType where
  | Monocrystalline
  | Polycrystalline
  | ThinFilm
deriving DecidableEq

/-- The value that the form stores for a panel type (lines 123-125). -/
def PanelType.label : PanelType → String
  | .Monocrystalline => "Monocrystalline"
  | .Polycrystalline => "Polycrystalline"
  | .ThinFilm => "Thin-Film"

/-- The panel factor as the specification states it: 1.0, 0.95 and 0.9. -/
def panelFactor : PanelType → JSNumber
  | .Monocrystalline => lit 1
  | .Polycrystalline => lit 0.95
  | .ThinFilm => lit 0.9

/-- The day-count table as the specification states it. -/
def dayTable : List (String × ℕ) :=
  [("January", 31), ("February", 28), ("March", 31), ("April", 30), ("May", 31),
   ("June", 30), ("July", 31), ("August", 31), ("September", 30), ("October", 31),
   ("November", 30), ("December", 31)]

/-- The hour labels as the specification states them, `0:00` to `23:00`. -/
def hourLabels : List String :=
  ["0:00", "1:00", "2:00", "3:00", "4:00", "5:00", "6:00", "7:00", "8:00", "9:00",
   "10:00", "11:00", "12:00", "13:00", "14:00", "15:00", "16:00", "17:00", "18:00",
   "19:00", "20:00", "21:00", "22:00", "23:00"]

/-! ## Rounding to the nearest integer and to a magnitude -/

theorem floor_le_roundHalfEven (x : ℚ) : ⌊x⌋ ≤ roundHalfEven x := by
  unfold roundHalfEven
  split_ifs <;> omega

theorem roundHalfEven_le_floor_add_one (x : ℚ) : roundHalfEven x ≤ ⌊x⌋ + 1 := by
  unfold roundHalfEven
  split_ifs <;> omega

theorem roundHalfEven_intCast (n : ℤ) : roundHalfEven (n : ℚ) = n := by
  unfold roundHalfEven
  simp

theorem roundHalfEven_eq_of_near {x : ℚ} {m : ℤ} (h : |x - m| < 1 / 2) :
    roundHalfEven x = m := by
  rw [abs_lt] at h
  unfold roundHalfEven
  by_cases hm : (m : ℚ) ≤ x
  · have hf : ⌊x⌋ = m := by
      rw [Int.floor_eq_iff]; constructor <;> linarith
    rw [hf, if_pos (by linarith)]
  · have hf : ⌊x⌋ = m - 1 := by
      rw [Int.floor_eq_iff]; push_cast; constructor <;> linarith
    rw [hf]; push_cast
    rw [if_neg (by linarith), if_pos (by linarith)]
    ring

theorem roundHalfEven_tie_down {x : ℚ} {m : ℤ} (h : x = m + 1 / 2) (hm : m % 2 = 0) :
    roundHalfEven x = m := by
  have hf : ⌊x⌋ = m := by
    rw [Int.floor_eq_iff]; constructor <;> linarith
  unfold roundHalfEven
  rw [hf, if_neg (by linarith), if_neg (by linarith), if_pos hm]

theorem roundHalfEven_tie_up {x : ℚ} {m : ℤ} (h : x = m - 1 / 2) (hm : m % 2 = 0) :
    roundHalfEven x = m := by
  have hf : ⌊x⌋ = m - 1 := by
    rw [Int.floor_eq_iff]; push_cast; constructor <;> linarith
  unfold roundHalfEven
  rw [hf]; push_cast
  rw [if_neg (by linarith), if_neg (by linarith), if_neg (by omega)]
  ring

theorem roundHalfEven_mono {x y : ℚ} (h : x ≤ y) : roundHalfEven x ≤ roundHalfEven y := by
  have hf : ⌊x⌋ ≤ ⌊y⌋ := Int.floor_mono h
  rcases hf.lt_or_eq with hlt | heq
  · have h1 := roundHalfEven_le_floor_add_one x
    have h2 := floor_le_roundHalfEven y
    omega
  · unfold roundHalfEven
    rw [← heq]
    split_ifs <;> first | omega | (exfalso; linarith)

theorem roundHalfEven_nonneg {x : ℚ} (h : 0 ≤ x) : 0 ≤ roundHalfEven x := by
  have := roundHalfEven_mono h
  rwa [show ((0 : ℚ)) = ((0 : ℤ) : ℚ) by simp, roundHalfEven_intCast] at this

theorem two_zpow_pos (e : ℤ) : (0 : ℚ) < 2 ^ e := zpow_pos (by norm_num) e

theorem two_zpow_log_le {a : ℚ} (ha : 0 < a) : (2 : ℚ) ^ Int.log 2 a ≤ a := by
  have := Int.zpow_log_le_self (b := 2) (by norm_num) ha
  simpa using this

theorem lt_two_zpow_log_succ (a : ℚ) : a < (2 : ℚ) ^ (Int.log 2 a + 1) := by
  have := Int.lt_zpow_succ_log_self (b := 2) (by norm_num) a
  simpa using this

theorem roundMagnitude_zero : roundMagnitude 0 = 0 := by
  unfold roundMagnitude
  rw [zero_div, show ((0 : ℚ)) = ((0 : ℤ) : ℚ) by simp, roundHalfEven_intCast]
  simp

theorem roundMagnitude_nonneg {a : ℚ} (ha : 0 ≤ a) : 0 ≤ roundMagnitude a := by
  unfold roundMagnitude
  have h1 : 0 ≤ a / 2 ^ ulpExponent a := div_nonneg ha (two_zpow_pos _).le
  have h2 : (0 : ℚ) ≤ (roundHalfEven (a / 2 ^ ulpExponent a) : ℚ) := by
    exact_mod_cast roundHalfEven_nonneg h1
  exact mul_nonneg h2 (two_zpow_pos _).le

/-- A magnitude is rounded to at most the top of its binade. -/
theorem roundMagnitude_le_top (a : ℚ) :
    roundMagnitude a ≤ 2 ^ (ulpExponent a + 53) := by
  unfold roundMagnitude
  have hE : Int.log 2 a + 1 ≤ ulpExponent a + 53 := by
    unfold ulpExponent; have := le_max_left (Int.log 2 a - 52) (-1074); omega
  have h1 : a < 2 ^ (ulpExponent a + 53) :=
    lt_of_lt_of_le (lt_two_zpow_log_succ a) (zpow_le_zpow_right₀ (by norm_num) hE)
  have hp := two_zpow_pos (ulpExponent a)
  have h2 : a / 2 ^ ulpExponent a ≤ ((2 ^ 53 : ℤ) : ℚ) := by
    rw [div_le_iff₀ hp]
    have : (2 : ℚ) ^ (ulpExponent a + 53) = ((2 ^ 53 : ℤ) : ℚ) * 2 ^ ulpExponent a := by
      rw [zpow_add₀ (by norm_num)]; push_cast; ring
    linarith
  have h3 := roundHalfEven_mono h2
  rw [roundHalfEven_intCast] at h3
  have h4 : (roundHalfEven (a / 2 ^ ulpExponent a) : ℚ) ≤ ((2 ^ 53 : ℤ) : ℚ) := by
    exact_mod_cast h3
  calc (roundHalfEven (a / 2 ^ ulpExponent a) : ℚ) * 2 ^ ulpExponent a
      ≤ ((2 ^ 53 : ℤ) : ℚ) * 2 ^ ulpExponent a := mul_le_mul_of_nonneg_right h4 hp.le
    _ = 2 ^ (ulpExponent a + 53) := by
      rw [zpow_add₀ (by norm_num)]; push_cast; ring

/-- A normal magnitude is rounded to at least the bottom of its binade. -/
theorem bottom_le_roundMagnitude {a : ℚ} (ha : 0 < a)
    (hE : ulpExponent a = Int.log 2 a - 52) :
    2 ^ (ulpExponent a + 52) ≤ roundMagnitude a := by
  unfold roundMagnitude
  have h1 : (2 : ℚ) ^ (ulpExponent a + 52) ≤ a := by
    rw [hE, sub_add_cancel]; exact two_zpow_log_le ha
  have hp := two_zpow_pos (ulpExponent a)
  have h2 : ((2 ^ 52 : ℤ) : ℚ) ≤ a / 2 ^ ulpExponent a := by
    rw [le_div_iff₀ hp]
    have : (2 : ℚ) ^ (ulpExponent a + 52) = ((2 ^ 52 : ℤ) : ℚ) * 2 ^ ulpExponent a := by
      rw [zpow_add₀ (by norm_num)]; push_cast; ring
    linarith
  have h3 := roundHalfEven_mono h2
  rw [roundHalfEven_intCast] at h3
  have h4 : ((2 ^ 52 : ℤ) : ℚ) ≤ (roundHalfEven (a / 2 ^ ulpExponent a) : ℚ) := by
    exact_mod_cast h3
  calc (2 : ℚ) ^ (ulpExponent a + 52) = ((2 ^ 52 : ℤ) : ℚ) * 2 ^ ulpExponent a := by
        rw [zpow_add₀ (by norm_num)]; push_cast; ring
    _ ≤ (roundHalfEven (a / 2 ^ ulpExponent a) : ℚ) * 2 ^ ulpExponent a :=
        mul_le_mul_of_nonneg_right h4 hp.le

theorem ulpExponent_mono {x y : ℚ} (hx : 0 < x) (h : x ≤ y) :
    ulpExponent x ≤ ulpExponent y := by
  unfold ulpExponent
  have := Int.log_mono_right (b := 2) hx h
  exact max_le_max (by omega) le_rfl

theorem roundMagnitude_mono {x y : ℚ} (hx : 0 ≤ x) (h : x ≤ y) :
    roundMagnitude x ≤ roundMagnitude y := by
  rcases hx.lt_or_eq with hx | hx
  · have hy : 0 < y := lt_of_lt_of_le hx h
    rcases (ulpExponent_mono hx h).lt_or_eq with hlt | heq
    · have hEy : ulpExponent y = Int.log 2 y - 52 := by
        have h1 : -1074 ≤ ulpExponent x := le_max_right _ _
        unfold ulpExponent at hlt ⊢
        rcases max_cases (Int.log 2 y - 52) (-1074) with ⟨h2, -⟩ | ⟨h2, -⟩
        · exact h2
        · rw [h2] at hlt
          unfold ulpExponent at h1
          omega
      calc roundMagnitude x ≤ 2 ^ (ulpExponent x + 53) := roundMagnitude_le_top x
        _ ≤ 2 ^ (ulpExponent y + 52) := zpow_le_zpow_right₀ (by norm_num) (by omega)
        _ ≤ roundMagnitude y := bottom_le_roundMagnitude hy hEy
    · unfold roundMagnitude
      rw [heq]
      have hp := two_zpow_pos (ulpExponent y)
      have h1 : x / 2 ^ ulpExponent y ≤ y / 2 ^ ulpExponent y :=
        div_le_div_of_nonneg_right h hp.le
      have h2 : (roundHalfEven (x / 2 ^ ulpExponent y) : ℚ)
          ≤ (roundHalfEven (y / 2 ^ ulpExponent y) : ℚ) := by
        exact_mod_cast roundHalfEven_mono h1
      exact mul_le_mul_of_nonneg_right h2 hp.le
  · rw [← hx, roundMagnitude_zero]
    exact roundMagnitude_nonneg (hx ▸ h)

theorem ulpExponent_eq {a : ℚ} (e : ℤ) (ha : 0 < a) (hlo : 2 ^ (e + 52) ≤ a)
    (hhi : a < 2 ^ (e + 53)) (he : -1074 ≤ e) : ulpExponent a = e := by
  have h1 : e + 52 ≤ Int.log 2 a := by
    rw [← Int.zpow_le_iff_le_log (by norm_num) ha]
    simpa using hlo
  have h2 : Int.log 2 a < e + 53 := by
    rw [← Int.lt_zpow_iff_log_lt (by norm_num) ha]
    simpa using hhi
  unfold ulpExponent
  have h3 : Int.log 2 a - 52 = e := by omega
  rw [h3]
  exact max_eq_left he

theorem roundMagnitude_eq {a : ℚ} (e m : ℤ) (ha : 0 < a) (hlo : 2 ^ (e + 52) ≤ a)
    (hhi : a < 2 ^ (e + 53)) (he : -1074 ≤ e) (hm : roundHalfEven (a / 2 ^ e) = m) :
    roundMagnitude a = m * 2 ^ e := by
  unfold roundMagnitude
  rw [ulpExponent_eq e ha hlo hhi he, hm]

/-! ## The order of numbers -/

theorem finite_le_finite {a b : ℚ} : JSNumber.finite a ≤ JSNumber.finite b ↔ a ≤ b :=
  Iff.rfl

theorem not_nan_le (y : JSNumber) : ¬ JSNumber.nan ≤ y := by
  cases y <;> exact fun h => h

theorem not_le_nan (x : JSNumber) : ¬ x ≤ JSNumber.nan := by
  cases x <;> exact fun h => h

theorem negInf_le {y : JSNumber} (h : y ≠ JSNumber.nan) : JSNumber.negInf ≤ y := by
  cases y with
  | nan => exact absurd rfl h
  | _ => exact True.intro

theorem le_posInf {x : JSNumber} (h : x ≠ JSNumber.nan) : x ≤ JSNumber.posInf := by
  cases x with
  | nan => exact absurd rfl h
  | _ => exact True.intro

theorem jsle_examples :
    ¬ JSNumber.negInf ≤ JSNumber.nan ∧ ¬ JSNumber.nan ≤ JSNumber.nan ∧
      ¬ JSNumber.posInf ≤ JSNumber.finite 1 ∧ JSNumber.negInf ≤ JSNumber.negInf ∧
      JSNumber.finite 1 ≤ JSNumber.posInf ∧ ¬ JSNumber.finite 1 ≤ JSNumber.negInf :=
  ⟨fun h => h, fun h => h, fun h => h, True.intro, True.intro, fun h => h⟩

theorem jsle_trans {x y z : JSNumber} (h1 : x ≤ y) (h2 : y ≤ z) : x ≤ z := by
  cases x <;> cases y <;> cases z <;>
    first
    | exact False.elim h1
    | exact False.elim h2
    | trivial
    | exact finite_le_finite.mpr (le_trans (finite_le_finite.mp h1) (finite_le_finite.mp h2))

theorem ne_nan_of_le_left {x y : JSNumber} (h : x ≤ y) : x ≠ JSNumber.nan := by
  rintro rfl
  exact not_nan_le _ h

theorem ne_nan_of_le_right {x y : JSNumber} (h : x ≤ y) : y ≠ JSNumber.nan := by
  rintro rfl
  exact not_le_nan _ h

theorem jsle_refl {x : JSNumber} (h : x ≠ JSNumber.nan) : x ≤ x := by
  cases x
  · exact finite_le_finite.mpr (le_refl _)
  · trivial
  · trivial
  · exact absurd rfl h

/-- A number between two finite numbers is finite. -/
theorem finite_of_between {x : JSNumber} {a b : ℚ} (h1 : JSNumber.finite a ≤ x)
    (h2 : x ≤ JSNumber.finite b) : ∃ t, x = JSNumber.finite t ∧ a ≤ t ∧ t ≤ b := by
  cases x with
  | finite t => exact ⟨t, rfl, finite_le_finite.mp h1, finite_le_finite.mp h2⟩
  | posInf => exact False.elim h2
  | negInf => exact False.elim h1
  | nan => exact False.elim h1

/-! ## Rounding to a double -/

theorem roundDouble_ne_nan (q : ℚ) : roundDouble q ≠ JSNumber.nan := by
  unfold roundDouble
  split_ifs <;> simp

theorem roundDouble_mono {x y : ℚ} (h : x ≤ y) : roundDouble x ≤ roundDouble y := by
  unfold roundDouble
  by_cases hx : x < 0
  · by_cases hy : y < 0
    · have hm : roundMagnitude (-y) ≤ roundMagnitude (-x) :=
        roundMagnitude_mono (by linarith) (by linarith)
      rw [if_pos hx, if_pos hy]
      split_ifs with h1 h2 h2
      · trivial
      · trivial
      · exact absurd (le_trans h2 hm) h1
      · exact finite_le_finite.mpr (by linarith)
    · have hm : 0 ≤ roundMagnitude (-x) := roundMagnitude_nonneg (by linarith)
      have hm2 : 0 ≤ roundMagnitude y := roundMagnitude_nonneg (by linarith)
      rw [if_pos hx, if_neg hy]
      split_ifs
      · trivial
      · trivial
      · trivial
      · exact finite_le_finite.mpr (by linarith)
  · have hy : ¬ y < 0 := by linarith
    have hm : roundMagnitude x ≤ roundMagnitude y :=
      roundMagnitude_mono (by linarith) h
    rw [if_neg hx, if_neg hy]
    split_ifs with h1 h2 h2
    · trivial
    · exact absurd (le_trans h1 hm) h2
    · trivial
    · exact finite_le_finite.mpr hm

theorem roundDouble_zero : roundDouble 0 = JSNumber.finite 0 := by
  unfold roundDouble
  rw [if_neg (by norm_num), roundMagnitude_zero, if_neg (by norm_num)]

theorem roundDouble_nonneg {q : ℚ} (h : 0 ≤ q) : JSNumber.finite 0 ≤ roundDouble q := by
  have := roundDouble_mono h
  rwa [roundDouble_zero] at this

theorem roundDouble_nonpos {q : ℚ} (h : q ≤ 0) : roundDouble q ≤ JSNumber.finite 0 := by
  have := roundDouble_mono h
  rwa [roundDouble_zero] at this

/-- The double nearest to a positive number, from the exponent `e` of its unit in the last
place and its significand `m`. -/
theorem roundDouble_eq_of_pos {q v : ℚ} (e m : ℤ) (hq : 0 < q) (hlo : 2 ^ (e + 52) ≤ q)
    (hhi : q < 2 ^ (e + 53)) (he : -1074 ≤ e) (hm : roundHalfEven (q / 2 ^ e) = m)
    (hfin : (m : ℚ) * 2 ^ e < 2 ^ 1024) (hv : (m : ℚ) * 2 ^ e = v) :
    roundDouble q = JSNumber.finite v := by
  unfold roundDouble
  rw [if_neg (by linarith), roundMagnitude_eq e m hq hlo hhi he hm, if_neg (by linarith), hv]

/-- The double nearest to a negative number. -/
theorem roundDouble_eq_of_neg {q v : ℚ} (e m : ℤ) (hq : q < 0) (hlo : 2 ^ (e + 52) ≤ -q)
    (hhi : -q < 2 ^ (e + 53)) (he : -1074 ≤ e) (hm : roundHalfEven ((-q) / 2 ^ e) = m)
    (hfin : (m : ℚ) * 2 ^ e < 2 ^ 1024) (hv : -((m : ℚ) * 2 ^ e) = v) :
    roundDouble q = JSNumber.finite v := by
  unfold roundDouble
  rw [if_pos hq, roundMagnitude_eq e m (by linarith) hlo hhi he hm, if_neg (by linarith), hv]

/-- A number from `2 ^ 1024` on is rounded to `Infinity`. -/
theorem roundDouble_overflow {q : ℚ} (h : 2 ^ 1024 ≤ q) : roundDouble q = JSNumber.posInf := by
  have h0 : (0 : ℚ) < 2 ^ 1024 := by positivity
  have hm : roundMagnitude (2 ^ 1024) = ((2 ^ 52 : ℤ) : ℚ) * 2 ^ (972 : ℤ) :=
    roundMagnitude_eq 972 (2 ^ 52) h0 (by norm_num) (by norm_num) (by norm_num)
      (roundHalfEven_eq_of_near (by norm_num))
  have hm2 : roundMagnitude (2 ^ 1024) = 2 ^ 1024 := by
    rw [hm]; norm_num
  have := roundMagnitude_mono h0.le h
  rw [hm2] at this
  unfold roundDouble
  rw [if_neg (by linarith), if_pos this]

/-! ## The arithmetic of numbers -/

theorem mul_finite (a b : ℚ) :
    JSNumber.finite a * JSNumber.finite b = roundDouble (a * b) := rfl

theorem add_finite (a b : ℚ) :
    JSNumber.finite a + JSNumber.finite b = roundDouble (a + b) := rfl

theorem div_finite (a : ℚ) {b : ℚ} (hb : b ≠ 0) :
    JSNumber.finite a / JSNumber.finite b = roundDouble (a / b) := by
  show JSNumber.div _ _ = _
  simp [JSNumber.div, hb]

theorem jsmul_comm (x y : JSNumber) : x * y = y * x := by
  cases x <;> cases y <;> first | rfl | (show roundDouble _ = roundDouble _; rw [mul_comm])

theorem nan_mul (x : JSNumber) : JSNumber.nan * x = JSNumber.nan := by
  cases x <;> rfl

theorem mul_nan (x : JSNumber) : x * JSNumber.nan = JSNumber.nan := by
  cases x <;> rfl

/-- A product by a non-negative number grows with its positive finite factor. -/
theorem jsmul_le_jsmul_left {n : JSNumber} {a b : ℚ} (hn : JSNumber.finite 0 ≤ n)
    (ha : 0 < a) (hab : a ≤ b) : n * JSNumber.finite a ≤ n * JSNumber.finite b := by
  cases n with
  | finite q =>
    have hq : 0 ≤ q := finite_le_finite.mp hn
    rw [mul_finite, mul_finite]
    exact roundDouble_mono (mul_le_mul_of_nonneg_left hab hq)
  | posInf =>
    have hb : 0 < b := lt_of_lt_of_le ha hab
    show JSNumber.mul _ _ ≤ JSNumber.mul _ _
    simp only [JSNumber.mul, ha.ne', hb.ne', not_lt.mpr ha.le, not_lt.mpr hb.le, if_false]
    trivial
  | negInf => exact False.elim hn
  | nan => exact False.elim hn

/-! ## The rounding of `toFixed(2)` -/

theorem decimalRound_mono {x y : ℚ} (h : x ≤ y) : decimalRound x ≤ decimalRound y := by
  unfold decimalRound
  split_ifs with hx hy hy
  · have hf : ⌊(-y) * 100 + 1 / 2⌋ ≤ ⌊(-x) * 100 + 1 / 2⌋ :=
      Int.floor_mono (by linarith)
    have hq : ((⌊(-y) * 100 + 1 / 2⌋ : ℤ) : ℚ) ≤ ((⌊(-x) * 100 + 1 / 2⌋ : ℤ) : ℚ) := by
      exact_mod_cast hf
    linarith
  · have h1 : (0 : ℤ) ≤ ⌊(-x) * 100 + 1 / 2⌋ := Int.floor_nonneg.mpr (by linarith)
    have h2 : (0 : ℤ) ≤ ⌊y * 100 + 1 / 2⌋ := Int.floor_nonneg.mpr (by linarith)
    have h1q : (0 : ℚ) ≤ ((⌊(-x) * 100 + 1 / 2⌋ : ℤ) : ℚ) := by exact_mod_cast h1
    have h2q : (0 : ℚ) ≤ ((⌊y * 100 + 1 / 2⌋ : ℤ) : ℚ) := by exact_mod_cast h2
    have h3 : (0 : ℚ) ≤ ((⌊y * 100 + 1 / 2⌋ : ℤ) : ℚ) / 100 := by positivity
    linarith
  · linarith
  · have hf : ⌊x * 100 + 1 / 2⌋ ≤ ⌊y * 100 + 1 / 2⌋ :=
      Int.floor_mono (by linarith)
    have hq : ((⌊x * 100 + 1 / 2⌋ : ℤ) : ℚ) ≤ ((⌊y * 100 + 1 / 2⌋ : ℤ) : ℚ) := by
      exact_mod_cast hf
    linarith

/-- A value that is already a whole number of hundredths is printed as it is. -/
theorem decimalRound_hundredths (n : ℤ) : decimalRound ((n : ℚ) / 100) = (n : ℚ) / 100 := by
  unfold decimalRound
  split_ifs with hx
  · have h : ⌊-((n : ℚ) / 100) * 100 + 1 / 2⌋ = -n := by
      rw [Int.floor_eq_iff]; push_cast; constructor <;> linarith
    rw [h]; push_cast; ring
  · have h : ⌊(n : ℚ) / 100 * 100 + 1 / 2⌋ = n := by
      rw [Int.floor_eq_iff]; constructor <;> linarith
    rw [h]

/-- The decimal printed for a number within half a hundredth of `n / 100`. -/
theorem decimalRound_eq_of_near {x : ℚ} (n : ℤ) (h1 : (n : ℚ) / 100 - 1 / 200 < x)
    (h2 : x < (n : ℚ) / 100 + 1 / 200) : decimalRound x = (n : ℚ) / 100 := by
  unfold decimalRound
  split_ifs with hx
  · have h : ⌊-x * 100 + 1 / 2⌋ = -n := by
      rw [Int.floor_eq_iff]; push_cast; constructor <;> linarith
    rw [h]; push_cast; ring
  · have h : ⌊x * 100 + 1 / 2⌋ = n := by
      rw [Int.floor_eq_iff]; constructor <;> linarith
    rw [h]

theorem roundDouble_ten_pow : roundDouble (10 ^ 21) = JSNumber.finite (10 ^ 21) :=
  roundDouble_eq_of_pos 17 7629394531250000 (by norm_num) (by norm_num) (by norm_num)
    (by norm_num) (roundHalfEven_eq_of_near (by norm_num)) (by norm_num) (by norm_num)

theorem roundDouble_neg_ten_pow : roundDouble (-10 ^ 21) = JSNumber.finite (-10 ^ 21) :=
  roundDouble_eq_of_neg 17 7629394531250000 (by norm_num) (by norm_num) (by norm_num)
    (by norm_num) (roundHalfEven_eq_of_near (by norm_num)) (by norm_num) (by norm_num)

theorem toFixed2_finite (x : ℚ) :
    toFixed2 (JSNumber.finite x)
      = if 10 ^ 21 ≤ |x| then JSNumber.finite x else roundDouble (decimalRound x) := rfl

theorem toFixed2_finite_ne_nan (x : ℚ) : toFixed2 (JSNumber.finite x) ≠ JSNumber.nan := by
  rw [toFixed2_finite]
  split_ifs
  · simp
  · exact roundDouble_ne_nan _

theorem toFixed2_mono {x y : JSNumber} (h : x ≤ y) : toFixed2 x ≤ toFixed2 y := by
  cases x with
  | nan => exact (not_nan_le _ h).elim
  | negInf =>
    cases y with
    | nan => exact (not_le_nan _ h).elim
    | negInf => trivial
    | posInf => trivial
    | finite b => exact negInf_le (toFixed2_finite_ne_nan b)
  | posInf =>
    cases y with
    | posInf => trivial
    | nan => exact (not_le_nan _ h).elim
    | negInf => exact False.elim h
    | finite b => exact False.elim h
  | finite a =>
    cases y with
    | nan => exact (not_le_nan _ h).elim
    | negInf => exact False.elim h
    | posInf => exact le_posInf (toFixed2_finite_ne_nan a)
    | finite b =>
      have hab : a ≤ b := finite_le_finite.mp h
      rw [toFixed2_finite, toFixed2_finite]
      split_ifs with ha hb hb
      · exact h
      · have hb2 := abs_lt.mp (not_le.mp hb)
        have ha2 : a ≤ -10 ^ 21 := by
          rcases le_abs'.mp ha with h1 | h1
          · exact h1
          · linarith
        have h1 : decimalRound (-10 ^ 21) ≤ decimalRound b := decimalRound_mono (by linarith)
        have h2 : decimalRound (-10 ^ 21 : ℚ) = -10 ^ 21 := by
          have := decimalRound_hundredths (-10 ^ 23)
          norm_num at this ⊢
          exact this
        rw [h2] at h1
        have h3 := roundDouble_mono h1
        rw [roundDouble_neg_ten_pow] at h3
        exact jsle_trans (finite_le_finite.mpr ha2) h3
      · have ha2 := abs_lt.mp (not_le.mp ha)
        have hb2 : 10 ^ 21 ≤ b := by
          rcases le_abs'.mp hb with h1 | h1
          · linarith
          · exact h1
        have h1 : decimalRound a ≤ decimalRound (10 ^ 21) := decimalRound_mono (by linarith)
        have h2 : decimalRound (10 ^ 21 : ℚ) = 10 ^ 21 := by
          have := decimalRound_hundredths (10 ^ 23)
          norm_num at this ⊢
          exact this
        rw [h2] at h1
        have h3 := roundDouble_mono h1
        rw [roundDouble_ten_pow] at h3
        exact jsle_trans h3 (finite_le_finite.mpr hb2)
      · exact roundDouble_mono (decimalRound_mono hab)

/-- The value of `+(x).toFixed(2)` for a finite `x` within half a hundredth of `n / 100`:
the double of the literal `n / 100`. -/
theorem toFixed2_eq_lit {x q : ℚ} (n : ℤ) (hlo : -10 ^ 21 < x) (hhi : x < 10 ^ 21)
    (h1 : (n : ℚ) / 100 - 1 / 200 < x) (h2 : x < (n : ℚ) / 100 + 1 / 200)
    (hq : (n : ℚ) / 100 = q) : toFixed2 (JSNumber.finite x) = lit q := by
  rw [toFixed2_finite, if_neg (not_le.mpr (abs_lt.mpr ⟨hlo, hhi⟩)),
    decimalRound_eq_of_near n h1 h2, hq]
  rfl

/-! ## Literals -/

theorem lit_zero :
    lit 0 = JSNumber.finite 0 := by
  show roundDouble (0) = _
  rw [show (0 : ℚ) = 0 by norm_num]
  exact roundDouble_zero

theorem lit_one :
    lit 1 = JSNumber.finite 1 := by
  show roundDouble (1) = _
  exact roundDouble_eq_of_pos (-52) 4503599627370496 (by norm_num) (by norm_num) (by norm_num)
    (by norm_num) (roundHalfEven_eq_of_near (by rw [abs_lt]; constructor <;> norm_num))
    (by norm_num) (by norm_num)

theorem lit_four :
    lit 4 = JSNumber.finite 4 := by
  show roundDouble (4) = _
  exact roundDouble_eq_of_pos (-50) 4503599627370496 (by norm_num) (by norm_num) (by norm_num)
    (by norm_num) (roundHalfEven_eq_of_near (by rw [abs_lt]; constructor <;> norm_num))
    (by norm_num) (by norm_num)

theorem lit_five :
    lit 5 = JSNumber.finite 5 := by
  show roundDouble (5) = _
  exact roundDouble_eq_of_pos (-50) 5629499534213120 (by norm_num) (by norm_num) (by norm_num)
    (by norm_num) (roundHalfEven_eq_of_near (by rw [abs_lt]; constructor <;> norm_num))
    (by norm_num) (by norm_num)

theorem lit_twelve :
    lit 12 = JSNumber.finite 12 := by
  show roundDouble (12) = _
  exact roundDouble_eq_of_pos (-49) 6755399441055744 (by norm_num) (by norm_num) (by norm_num)
    (by norm_num) (roundHalfEven_eq_of_near (by rw [abs_lt]; constructor <;> norm_num))
    (by norm_num) (by norm_num)

theorem lit_eighteen :
    lit 18 = JSNumber.finite 18 := by
  show roundDouble (18) = _
  exact roundDouble_eq_of_pos (-48) 5066549580791808 (by norm_num) (by norm_num) (by norm_num)
    (by norm_num) (roundHalfEven_eq_of_near (by rw [abs_lt]; constructor <;> norm_num))
    (by norm_num) (by norm_num)

theorem lit_hundred :
    lit 100 = JSNumber.finite 100 := by
  show roundDouble (100) = _
  exact roundDouble_eq_of_pos (-46) 7036874417766400 (by norm_num) (by norm_num) (by norm_num)
    (by norm_num) (roundHalfEven_eq_of_near (by rw [abs_lt]; constructor <;> norm_num))
    (by norm_num) (by norm_num)

theorem lit_neg_eighteen :
    lit (-18) = JSNumber.finite (-18) := by
  show roundDouble ((-18)) = _
  exact roundDouble_eq_of_neg (-48) 5066549580791808 (by norm_num) (by norm_num) (by norm_num)
    (by norm_num) (roundHalfEven_eq_of_near (by rw [abs_lt]; constructor <;> norm_num))
    (by norm_num) (by norm_num)

theorem lit_neg_twelve :
    lit (-12) = JSNumber.finite (-12) := by
  show roundDouble ((-12)) = _
  exact roundDouble_eq_of_neg (-49) 6755399441055744 (by norm_num) (by norm_num) (by norm_num)
    (by norm_num) (roundHalfEven_eq_of_near (by rw [abs_lt]; constructor <;> norm_num))
    (by norm_num) (by norm_num)

theorem lit_0_95 :
    lit 0.95 = JSNumber.finite (4278419646001971 / 4503599627370496) := by
  show roundDouble (0.95) = _
  exact roundDouble_eq_of_pos (-53) 8556839292003942 (by norm_num) (by norm_num) (by norm_num)
    (by norm_num) (roundHalfEven_eq_of_near (by rw [abs_lt]; constructor <;> norm_num))
    (by norm_num) (by norm_num)

theorem lit_0_9 :
    lit 0.9 = JSNumber.finite (8106479329266893 / 9007199254740992) := by
  show roundDouble (0.9) = _
  exact roundDouble_eq_of_pos (-53) 8106479329266893 (by norm_num) (by norm_num) (by norm_num)
    (by norm_num) (roundHalfEven_eq_of_near (by rw [abs_lt]; constructor <;> norm_num))
    (by norm_num) (by norm_num)

theorem lit_0_2 :
    lit 0.2 = JSNumber.finite (3602879701896397 / 18014398509481984) := by
  show roundDouble (0.2) = _
  exact roundDouble_eq_of_pos (-55) 7205759403792794 (by norm_num) (by norm_num) (by norm_num)
    (by norm_num) (roundHalfEven_eq_of_near (by rw [abs_lt]; constructor <;> norm_num))
    (by norm_num) (by norm_num)

theorem lit_0_3 :
    lit 0.3 = JSNumber.finite (5404319552844595 / 18014398509481984) := by
  show roundDouble (0.3) = _
  exact roundDouble_eq_of_pos (-54) 5404319552844595 (by norm_num) (by norm_num) (by norm_num)
    (by norm_num) (roundHalfEven_eq_of_near (by rw [abs_lt]; constructor <;> norm_num))
    (by norm_num) (by norm_num)

theorem lit_0_85 :
    lit 0.85 = JSNumber.finite (7656119366529843 / 9007199254740992) := by
  show roundDouble (0.85) = _
  exact roundDouble_eq_of_pos (-53) 7656119366529843 (by norm_num) (by norm_num) (by norm_num)
    (by norm_num) (roundHalfEven_eq_of_near (by rw [abs_lt]; constructor <;> norm_num))
    (by norm_num) (by norm_num)

theorem lit_1_1 :
    lit 1.1 = JSNumber.finite (2476979795053773 / 2251799813685248) := by
  show roundDouble (1.1) = _
  exact roundDouble_eq_of_pos (-52) 4953959590107546 (by norm_num) (by norm_num) (by norm_num)
    (by norm_num) (roundHalfEven_eq_of_near (by rw [abs_lt]; constructor <;> norm_num))
    (by norm_num) (by norm_num)

theorem lit_1_15 :
    lit 1.15 = JSNumber.finite (2589569785738035 / 2251799813685248) := by
  show roundDouble (1.15) = _
  exact roundDouble_eq_of_pos (-52) 5179139571476070 (by norm_num) (by norm_num) (by norm_num)
    (by norm_num) (roundHalfEven_eq_of_near (by rw [abs_lt]; constructor <;> norm_num))
    (by norm_num) (by norm_num)

theorem lit_43_2 :
    lit 43.2 = JSNumber.finite (3039929748475085 / 70368744177664) := by
  show roundDouble (43.2) = _
  exact roundDouble_eq_of_pos (-47) 6079859496950170 (by norm_num) (by norm_num) (by norm_num)
    (by norm_num) (roundHalfEven_eq_of_near (by rw [abs_lt]; constructor <;> norm_num))
    (by norm_num) (by norm_num)

theorem lit_38_88 :
    lit 38.88 = JSNumber.finite (5471873547255153 / 140737488355328) := by
  show roundDouble (38.88) = _
  exact roundDouble_eq_of_pos (-47) 5471873547255153 (by norm_num) (by norm_num) (by norm_num)
    (by norm_num) (roundHalfEven_eq_of_near (by rw [abs_lt]; constructor <;> norm_num))
    (by norm_num) (by norm_num)

theorem lit_36_72 :
    lit 36.72 = JSNumber.finite (1291970143101911 / 35184372088832) := by
  show roundDouble (36.72) = _
  exact roundDouble_eq_of_pos (-47) 5167880572407644 (by norm_num) (by norm_num) (by norm_num)
    (by norm_num) (roundHalfEven_eq_of_near (by rw [abs_lt]; constructor <;> norm_num))
    (by norm_num) (by norm_num)

theorem lit_49_68 :
    lit 49.68 = JSNumber.finite (6991838421492695 / 140737488355328) := by
  show roundDouble (49.68) = _
  exact roundDouble_eq_of_pos (-47) 6991838421492695 (by norm_num) (by norm_num) (by norm_num)
    (by norm_num) (roundHalfEven_eq_of_near (by rw [abs_lt]; constructor <;> norm_num))
    (by norm_num) (by norm_num)

theorem lit_1339_2 :
    lit 1339.2 = JSNumber.finite (5889863887670477 / 4398046511104) := by
  show roundDouble (1339.2) = _
  exact roundDouble_eq_of_pos (-42) 5889863887670477 (by norm_num) (by norm_num) (by norm_num)
    (by norm_num) (roundHalfEven_eq_of_near (by rw [abs_lt]; constructor <;> norm_num))
    (by norm_num) (by norm_num)

theorem lit_1138_32 :
    lit 1138.32 = JSNumber.finite (5006384304519905 / 4398046511104) := by
  show roundDouble (1138.32) = _
  exact roundDouble_eq_of_pos (-42) 5006384304519905 (by norm_num) (by norm_num) (by norm_num)
    (by norm_num) (roundHalfEven_eq_of_near (by rw [abs_lt]; constructor <;> norm_num))
    (by norm_num) (by norm_num)

theorem lit_1209_6 :
    lit 1209.6 = JSNumber.finite (2659938529915699 / 2199023255552) := by
  show roundDouble (1209.6) = _
  exact roundDouble_eq_of_pos (-42) 5319877059831398 (by norm_num) (by norm_num) (by norm_num)
    (by norm_num) (roundHalfEven_eq_of_near (by rw [abs_lt]; constructor <;> norm_num))
    (by norm_num) (by norm_num)

theorem lit_14_53 :
    lit 14.53 = JSNumber.finite (8179662823211663 / 562949953421312) := by
  show roundDouble (14.53) = _
  exact roundDouble_eq_of_pos (-49) 8179662823211663 (by norm_num) (by norm_num) (by norm_num)
    (by norm_num) (roundHalfEven_eq_of_near (by rw [abs_lt]; constructor <;> norm_num))
    (by norm_num) (by norm_num)

theorem lit_0_42 :
    lit 0.42 = JSNumber.finite (7566047373982433 / 18014398509481984) := by
  show roundDouble (0.42) = _
  exact roundDouble_eq_of_pos (-54) 7566047373982433 (by norm_num) (by norm_num) (by norm_num)
    (by norm_num) (roundHalfEven_eq_of_near (by rw [abs_lt]; constructor <;> norm_num))
    (by norm_num) (by norm_num)

theorem lit_twenty_five :
    lit 25 = JSNumber.finite 25 := by
  show roundDouble (25) = _
  exact roundDouble_eq_of_pos (-48) 7036874417766400 (by norm_num) (by norm_num) (by norm_num)
    (by norm_num) (roundHalfEven_eq_of_near (by rw [abs_lt]; constructor <;> norm_num))
    (by norm_num) (by norm_num)

theorem lit_0_5 :
    lit 0.5 = JSNumber.finite (1 / 2) := by
  show roundDouble (0.5) = _
  exact roundDouble_eq_of_pos (-53) 4503599627370496 (by norm_num) (by norm_num) (by norm_num)
    (by norm_num) (roundHalfEven_eq_of_near (by rw [abs_lt]; constructor <;> norm_num))
    (by norm_num) (by norm_num)

/-! ## The doubles of the noise factors -/

theorem roundDouble_0_2 :
    roundDouble (3602879701896397 / 18014398509481984) = JSNumber.finite (3602879701896397 / 18014398509481984) := by
  show roundDouble ((3602879701896397 / 18014398509481984)) = _
  exact roundDouble_eq_of_pos (-55) 7205759403792794 (by norm_num) (by norm_num) (by norm_num)
    (by norm_num) (roundHalfEven_eq_of_near (by rw [abs_lt]; constructor <;> norm_num))
    (by norm_num) (by norm_num)

theorem roundDouble_0_9 :
    roundDouble (8106479329266893 / 9007199254740992) = JSNumber.finite (8106479329266893 / 9007199254740992) := by
  show roundDouble ((8106479329266893 / 9007199254740992)) = _
  exact roundDouble_eq_of_pos (-53) 8106479329266893 (by norm_num) (by norm_num) (by norm_num)
    (by norm_num) (roundHalfEven_eq_of_near (by rw [abs_lt]; constructor <;> norm_num))
    (by norm_num) (by norm_num)

theorem roundDouble_0_3 :
    roundDouble (5404319552844595 / 18014398509481984) = JSNumber.finite (5404319552844595 / 18014398509481984) := by
  show roundDouble ((5404319552844595 / 18014398509481984)) = _
  exact roundDouble_eq_of_pos (-54) 5404319552844595 (by norm_num) (by norm_num) (by norm_num)
    (by norm_num) (roundHalfEven_eq_of_near (by rw [abs_lt]; constructor <;> norm_num))
    (by norm_num) (by norm_num)

theorem roundDouble_0_85 :
    roundDouble (7656119366529843 / 9007199254740992) = JSNumber.finite (7656119366529843 / 9007199254740992) := by
  show roundDouble ((7656119366529843 / 9007199254740992)) = _
  exact roundDouble_eq_of_pos (-53) 7656119366529843 (by norm_num) (by norm_num) (by norm_num)
    (by norm_num) (roundHalfEven_eq_of_near (by rw [abs_lt]; constructor <;> norm_num))
    (by norm_num) (by norm_num)

theorem add_0_2_0_9 :
    JSNumber.finite (3602879701896397 / 18014398509481984) + JSNumber.finite (8106479329266893 / 9007199254740992) = JSNumber.finite (2476979795053773 / 2251799813685248) := by
  show roundDouble ((3602879701896397 / 18014398509481984) + (8106479329266893 / 9007199254740992)) = _
  exact roundDouble_eq_of_pos (-52) 4953959590107546 (by norm_num) (by norm_num) (by norm_num)
    (by norm_num) (roundHalfEven_eq_of_near (by rw [abs_lt]; constructor <;> norm_num))
    (by norm_num) (by norm_num)

theorem add_0_3_0_85 :
    JSNumber.finite (5404319552844595 / 18014398509481984) + JSNumber.finite (7656119366529843 / 9007199254740992) = JSNumber.finite (2589569785738035 / 2251799813685248) := by
  show roundDouble ((5404319552844595 / 18014398509481984) + (7656119366529843 / 9007199254740992)) = _
  exact roundDouble_eq_of_pos (-52) 5179139571476070 (by norm_num) (by norm_num) (by norm_num)
    (by norm_num) (roundHalfEven_eq_of_near (by rw [abs_lt]; constructor <;> norm_num))
    (by norm_num) (by norm_num)

theorem mul_zero_0_2 :
    JSNumber.finite 0 * JSNumber.finite (3602879701896397 / 18014398509481984) = JSNumber.finite 0 := by
  show roundDouble (0 * (3602879701896397 / 18014398509481984)) = _
  rw [show (0 * (3602879701896397 / 18014398509481984) : ℚ) = 0 by norm_num]
  exact roundDouble_zero

theorem mul_zero_0_3 :
    JSNumber.finite 0 * JSNumber.finite (5404319552844595 / 18014398509481984) = JSNumber.finite 0 := by
  show roundDouble (0 * (5404319552844595 / 18014398509481984)) = _
  rw [show (0 * (5404319552844595 / 18014398509481984) : ℚ) = 0 by norm_num]
  exact roundDouble_zero

theorem add_zero_0_9 :
    JSNumber.finite 0 + JSNumber.finite (8106479329266893 / 9007199254740992) = JSNumber.finite (8106479329266893 / 9007199254740992) := by
  show roundDouble (0 + (8106479329266893 / 9007199254740992)) = _
  exact roundDouble_eq_of_pos (-53) 8106479329266893 (by norm_num) (by norm_num) (by norm_num)
    (by norm_num) (roundHalfEven_eq_of_near (by rw [abs_lt]; constructor <;> norm_num))
    (by norm_num) (by norm_num)

theorem add_zero_0_85 :
    JSNumber.finite 0 + JSNumber.finite (7656119366529843 / 9007199254740992) = JSNumber.finite (7656119366529843 / 9007199254740992) := by
  show roundDouble (0 + (7656119366529843 / 9007199254740992)) = _
  exact roundDouble_eq_of_pos (-53) 7656119366529843 (by norm_num) (by norm_num) (by norm_num)
    (by norm_num) (roundHalfEven_eq_of_near (by rw [abs_lt]; constructor <;> norm_num))
    (by norm_num) (by norm_num)

theorem mul_half_0_3 :
    JSNumber.finite (1 / 2) * JSNumber.finite (5404319552844595 / 18014398509481984) = JSNumber.finite (5404319552844595 / 36028797018963968) := by
  show roundDouble ((1 / 2) * (5404319552844595 / 18014398509481984)) = _
  exact roundDouble_eq_of_pos (-55) 5404319552844595 (by norm_num) (by norm_num) (by norm_num)
    (by norm_num) (roundHalfEven_eq_of_near (by rw [abs_lt]; constructor <;> norm_num))
    (by norm_num) (by norm_num)

theorem add_half_0_3_0_85 :
    JSNumber.finite (5404319552844595 / 36028797018963968) + JSNumber.finite (7656119366529843 / 9007199254740992) = JSNumber.finite 1 := by
  show roundDouble ((5404319552844595 / 36028797018963968) + (7656119366529843 / 9007199254740992)) = _
  exact roundDouble_eq_of_pos (-53) 9007199254740992 (by norm_num) (by norm_num) (by norm_num)
    (by norm_num) (roundHalfEven_eq_of_near (by rw [abs_lt]; constructor <;> norm_num))
    (by norm_num) (by norm_num)

/-! ## The nominal daily energy of the default configuration, step by step -/

theorem div_18_100 :
    JSNumber.finite 18 / JSNumber.finite 100 = JSNumber.finite (3242591731706757 / 18014398509481984) := by
  rw [div_finite _ (by norm_num)]
  exact roundDouble_eq_of_pos (-55) 6485183463413514 (by norm_num) (by norm_num) (by norm_num)
    (by norm_num) (roundHalfEven_eq_of_near (by rw [abs_lt]; constructor <;> norm_num))
    (by norm_num) (by norm_num)

theorem mul_4_eff :
    JSNumber.finite 4 * JSNumber.finite (3242591731706757 / 18014398509481984) = JSNumber.finite (3242591731706757 / 4503599627370496) := by
  show roundDouble (4 * (3242591731706757 / 18014398509481984)) = _
  exact roundDouble_eq_of_pos (-53) 6485183463413514 (by norm_num) (by norm_num) (by norm_num)
    (by norm_num) (roundHalfEven_eq_of_near (by rw [abs_lt]; constructor <;> norm_num))
    (by norm_num) (by norm_num)

theorem mul_eff_12 :
    JSNumber.finite (3242591731706757 / 4503599627370496) * JSNumber.finite 12 = JSNumber.finite (607985949695017 / 70368744177664) := by
  show roundDouble ((3242591731706757 / 4503599627370496) * 12) = _
  exact roundDouble_eq_of_pos (-49) 4863887597560136 (by norm_num) (by norm_num) (by norm_num)
    (by norm_num) (roundHalfEven_tie_up (by norm_num) (by norm_num))
    (by norm_num) (by norm_num)

theorem mul_volt_5 :
    JSNumber.finite (607985949695017 / 70368744177664) * JSNumber.finite 5 = JSNumber.finite (3039929748475085 / 70368744177664) := by
  show roundDouble ((607985949695017 / 70368744177664) * 5) = _
  exact roundDouble_eq_of_pos (-47) 6079859496950170 (by norm_num) (by norm_num) (by norm_num)
    (by norm_num) (roundHalfEven_eq_of_near (by rw [abs_lt]; constructor <;> norm_num))
    (by norm_num) (by norm_num)

theorem mul_cur_1 :
    JSNumber.finite (3039929748475085 / 70368744177664) * JSNumber.finite 1 = JSNumber.finite (3039929748475085 / 70368744177664) := by
  show roundDouble ((3039929748475085 / 70368744177664) * 1) = _
  exact roundDouble_eq_of_pos (-47) 6079859496950170 (by norm_num) (by norm_num) (by norm_num)
    (by norm_num) (roundHalfEven_eq_of_near (by rw [abs_lt]; constructor <;> norm_num))
    (by norm_num) (by norm_num)

theorem mul_cur_0_9 :
    JSNumber.finite (3039929748475085 / 70368744177664) * JSNumber.finite (8106479329266893 / 9007199254740992) = JSNumber.finite (5471873547255153 / 140737488355328) := by
  show roundDouble ((3039929748475085 / 70368744177664) * (8106479329266893 / 9007199254740992)) = _
  exact roundDouble_eq_of_pos (-47) 5471873547255153 (by norm_num) (by norm_num) (by norm_num)
    (by norm_num) (roundHalfEven_eq_of_near (by rw [abs_lt]; constructor <;> norm_num))
    (by norm_num) (by norm_num)

theorem mul_nominal_0_85 :
    JSNumber.finite (3039929748475085 / 70368744177664) * JSNumber.finite (7656119366529843 / 9007199254740992) = JSNumber.finite (1291970143101911 / 35184372088832) := by
  show roundDouble ((3039929748475085 / 70368744177664) * (7656119366529843 / 9007199254740992)) = _
  exact roundDouble_eq_of_pos (-47) 5167880572407644 (by norm_num) (by norm_num) (by norm_num)
    (by norm_num) (roundHalfEven_eq_of_near (by rw [abs_lt]; constructor <;> norm_num))
    (by norm_num) (by norm_num)

theorem mul_0_85_nominal :
    JSNumber.finite (7656119366529843 / 9007199254740992) * JSNumber.finite (3039929748475085 / 70368744177664) = JSNumber.finite (1291970143101911 / 35184372088832) := by
  show roundDouble ((7656119366529843 / 9007199254740992) * (3039929748475085 / 70368744177664)) = _
  exact roundDouble_eq_of_pos (-47) 5167880572407644 (by norm_num) (by norm_num) (by norm_num)
    (by norm_num) (roundHalfEven_eq_of_near (by rw [abs_lt]; constructor <;> norm_num))
    (by norm_num) (by norm_num)

theorem mul_1_15_nominal :
    JSNumber.finite (2589569785738035 / 2251799813685248) * JSNumber.finite (3039929748475085 / 70368744177664) = JSNumber.finite (6991838421492695 / 140737488355328) := by
  show roundDouble ((2589569785738035 / 2251799813685248) * (3039929748475085 / 70368744177664)) = _
  exact roundDouble_eq_of_pos (-47) 6991838421492695 (by norm_num) (by norm_num) (by norm_num)
    (by norm_num) (roundHalfEven_eq_of_near (by rw [abs_lt]; constructor <;> norm_num))
    (by norm_num) (by norm_num)

theorem mul_nominal_31 :
    JSNumber.finite (3039929748475085 / 70368744177664) * JSNumber.finite 31 = JSNumber.finite (5889863887670477 / 4398046511104) := by
  show roundDouble ((3039929748475085 / 70368744177664) * 31) = _
  exact roundDouble_eq_of_pos (-42) 5889863887670477 (by norm_num) (by norm_num) (by norm_num)
    (by norm_num) (roundHalfEven_eq_of_near (by rw [abs_lt]; constructor <;> norm_num))
    (by norm_num) (by norm_num)

theorem mul_low_31 :
    JSNumber.finite (1291970143101911 / 35184372088832) * JSNumber.finite 31 = JSNumber.finite (5006384304519905 / 4398046511104) := by
  show roundDouble ((1291970143101911 / 35184372088832) * 31) = _
  exact roundDouble_eq_of_pos (-42) 5006384304519905 (by norm_num) (by norm_num) (by norm_num)
    (by norm_num) (roundHalfEven_eq_of_near (by rw [abs_lt]; constructor <;> norm_num))
    (by norm_num) (by norm_num)

theorem toFixed2_low :
    toFixed2 (JSNumber.finite (1291970143101911 / 35184372088832)) = lit 36.72 :=
  toFixed2_eq_lit (3672) (by norm_num) (by norm_num) (by norm_num) (by norm_num)
    (by norm_num)

theorem toFixed2_high :
    toFixed2 (JSNumber.finite (6991838421492695 / 140737488355328)) = lit 49.68 :=
  toFixed2_eq_lit (4968) (by norm_num) (by norm_num) (by norm_num) (by norm_num)
    (by norm_num)

theorem toFixed2_hourly_low :
    toFixed2 (JSNumber.finite (5471873547255153 / 140737488355328)) = lit 38.88 :=
  toFixed2_eq_lit (3888) (by norm_num) (by norm_num) (by norm_num) (by norm_num)
    (by norm_num)

theorem toFixed2_january_mid :
    toFixed2 (JSNumber.finite (5889863887670477 / 4398046511104)) = lit 1339.2 :=
  toFixed2_eq_lit (133920) (by norm_num) (by norm_num) (by norm_num) (by norm_num)
    (by norm_num)

theorem toFixed2_january_low :
    toFixed2 (JSNumber.finite (5006384304519905 / 4398046511104)) = lit 1138.32 :=
  toFixed2_eq_lit (113832) (by norm_num) (by norm_num) (by norm_num) (by norm_num)
    (by norm_num)

/-! ## The negative configuration -/

theorem div_neg_18_100 :
    JSNumber.finite (-18) / JSNumber.finite 100 = JSNumber.finite (-(3242591731706757 / 18014398509481984)) := by
  rw [div_finite _ (by norm_num)]
  exact roundDouble_eq_of_neg (-55) 6485183463413514 (by norm_num) (by norm_num) (by norm_num)
    (by norm_num) (roundHalfEven_eq_of_near (by rw [abs_lt]; constructor <;> norm_num))
    (by norm_num) (by norm_num)

theorem mul_4_neg_eff :
    JSNumber.finite 4 * JSNumber.finite (-(3242591731706757 / 18014398509481984)) = JSNumber.finite (-(3242591731706757 / 4503599627370496)) := by
  show roundDouble (4 * (-(3242591731706757 / 18014398509481984))) = _
  exact roundDouble_eq_of_neg (-53) 6485183463413514 (by norm_num) (by norm_num) (by norm_num)
    (by norm_num) (roundHalfEven_eq_of_near (by rw [abs_lt]; constructor <;> norm_num))
    (by norm_num) (by norm_num)

theorem mul_neg_eff_neg_12 :
    JSNumber.finite (-(3242591731706757 / 4503599627370496)) * JSNumber.finite (-12) = JSNumber.finite (607985949695017 / 70368744177664) := by
  show roundDouble ((-(3242591731706757 / 4503599627370496)) * (-12)) = _
  exact roundDouble_eq_of_pos (-49) 4863887597560136 (by norm_num) (by norm_num) (by norm_num)
    (by norm_num) (roundHalfEven_tie_up (by norm_num) (by norm_num))
    (by norm_num) (by norm_num)

/-! ## The Polycrystalline configuration at 5 V -/

theorem mul_eff_5 :
    JSNumber.finite (3242591731706757 / 4503599627370496) * JSNumber.finite 5 = JSNumber.finite (2026619832316723 / 562949953421312) := by
  show roundDouble ((3242591731706757 / 4503599627370496) * 5) = _
  exact roundDouble_eq_of_pos (-51) 8106479329266892 (by norm_num) (by norm_num) (by norm_num)
    (by norm_num) (roundHalfEven_tie_down (by norm_num) (by norm_num))
    (by norm_num) (by norm_num)

theorem mul_volt5_5 :
    JSNumber.finite (2026619832316723 / 562949953421312) * JSNumber.finite 5 = JSNumber.finite 18 := by
  show roundDouble ((2026619832316723 / 562949953421312) * 5) = _
  exact roundDouble_eq_of_pos (-48) 5066549580791808 (by norm_num) (by norm_num) (by norm_num)
    (by norm_num) (roundHalfEven_tie_up (by norm_num) (by norm_num))
    (by norm_num) (by norm_num)

theorem mul_cur_0_95 :
    JSNumber.finite 18 * JSNumber.finite (4278419646001971 / 4503599627370496) = JSNumber.finite (4813222101752217 / 281474976710656) := by
  show roundDouble (18 * (4278419646001971 / 4503599627370496)) = _
  exact roundDouble_eq_of_pos (-48) 4813222101752217 (by norm_num) (by norm_num) (by norm_num)
    (by norm_num) (roundHalfEven_eq_of_near (by rw [abs_lt]; constructor <;> norm_num))
    (by norm_num) (by norm_num)

theorem mul_poly_0_85 :
    JSNumber.finite (4813222101752217 / 281474976710656) * JSNumber.finite (7656119366529843 / 9007199254740992) = JSNumber.finite (8182477572978769 / 562949953421312) := by
  show roundDouble ((4813222101752217 / 281474976710656) * (7656119366529843 / 9007199254740992)) = _
  exact roundDouble_eq_of_pos (-49) 8182477572978769 (by norm_num) (by norm_num) (by norm_num)
    (by norm_num) (roundHalfEven_eq_of_near (by rw [abs_lt]; constructor <;> norm_num))
    (by norm_num) (by norm_num)

theorem toFixed2_poly :
    toFixed2 (JSNumber.finite (8182477572978769 / 562949953421312)) = lit 14.53 :=
  toFixed2_eq_lit (1453) (by norm_num) (by norm_num) (by norm_num) (by norm_num)
    (by norm_num)

/-! ## The configuration 25 %, 1 V, 0.5 A -/

theorem div_25_100 :
    JSNumber.finite 25 / JSNumber.finite 100 = JSNumber.finite (1 / 4) := by
  rw [div_finite _ (by norm_num)]
  exact roundDouble_eq_of_pos (-54) 4503599627370496 (by norm_num) (by norm_num) (by norm_num)
    (by norm_num) (roundHalfEven_eq_of_near (by rw [abs_lt]; constructor <;> norm_num))
    (by norm_num) (by norm_num)

theorem mul_4_quarter :
    JSNumber.finite 4 * JSNumber.finite (1 / 4) = JSNumber.finite 1 := by
  show roundDouble (4 * (1 / 4)) = _
  exact roundDouble_eq_of_pos (-52) 4503599627370496 (by norm_num) (by norm_num) (by norm_num)
    (by norm_num) (roundHalfEven_eq_of_near (by rw [abs_lt]; constructor <;> norm_num))
    (by norm_num) (by norm_num)

theorem mul_one_one :
    JSNumber.finite 1 * JSNumber.finite 1 = JSNumber.finite 1 := by
  show roundDouble (1 * 1) = _
  exact roundDouble_eq_of_pos (-52) 4503599627370496 (by norm_num) (by norm_num) (by norm_num)
    (by norm_num) (roundHalfEven_eq_of_near (by rw [abs_lt]; constructor <;> norm_num))
    (by norm_num) (by norm_num)

theorem mul_one_half :
    JSNumber.finite 1 * JSNumber.finite (1 / 2) = JSNumber.finite (1 / 2) := by
  show roundDouble (1 * (1 / 2)) = _
  exact roundDouble_eq_of_pos (-53) 4503599627370496 (by norm_num) (by norm_num) (by norm_num)
    (by norm_num) (roundHalfEven_eq_of_near (by rw [abs_lt]; constructor <;> norm_num))
    (by norm_num) (by norm_num)

theorem mul_half_one :
    JSNumber.finite (1 / 2) * JSNumber.finite 1 = JSNumber.finite (1 / 2) := by
  show roundDouble ((1 / 2) * 1) = _
  exact roundDouble_eq_of_pos (-53) 4503599627370496 (by norm_num) (by norm_num) (by norm_num)
    (by norm_num) (roundHalfEven_eq_of_near (by rw [abs_lt]; constructor <;> norm_num))
    (by norm_num) (by norm_num)

theorem mul_half_0_85 :
    JSNumber.finite (1 / 2) * JSNumber.finite (7656119366529843 / 9007199254740992) = JSNumber.finite (7656119366529843 / 18014398509481984) := by
  show roundDouble ((1 / 2) * (7656119366529843 / 9007199254740992)) = _
  exact roundDouble_eq_of_pos (-54) 7656119366529843 (by norm_num) (by norm_num) (by norm_num)
    (by norm_num) (roundHalfEven_eq_of_near (by rw [abs_lt]; constructor <;> norm_num))
    (by norm_num) (by norm_num)

theorem toFixed2_half :
    toFixed2 (JSNumber.finite (7656119366529843 / 18014398509481984)) = lit 0.42 :=
  toFixed2_eq_lit (42) (by norm_num) (by norm_num) (by norm_num) (by norm_num)
    (by norm_num)

/-! ## The configuration 19 %, Polycrystalline, 15 V, 5 A -/

theorem lit_nineteen :
    lit 19 = JSNumber.finite 19 := by
  show roundDouble (19) = _
  exact roundDouble_eq_of_pos (-48) 5348024557502464 (by norm_num) (by norm_num) (by norm_num)
    (by norm_num) (roundHalfEven_eq_of_near (by rw [abs_lt]; constructor <;> norm_num))
    (by norm_num) (by norm_num)

theorem lit_fifteen :
    lit 15 = JSNumber.finite 15 := by
  show roundDouble (15) = _
  exact roundDouble_eq_of_pos (-49) 8444249301319680 (by norm_num) (by norm_num) (by norm_num)
    (by norm_num) (roundHalfEven_eq_of_near (by rw [abs_lt]; constructor <;> norm_num))
    (by norm_num) (by norm_num)

theorem lit_48_73 :
    lit 48.73 = JSNumber.finite (6858137807555133 / 140737488355328) := by
  show roundDouble (48.73) = _
  exact roundDouble_eq_of_pos (-47) 6858137807555133 (by norm_num) (by norm_num) (by norm_num)
    (by norm_num) (roundHalfEven_eq_of_near (by rw [abs_lt]; constructor <;> norm_num))
    (by norm_num) (by norm_num)

theorem div_19_100 :
    JSNumber.finite 19 / JSNumber.finite 100 = JSNumber.finite (3422735716801577 / 18014398509481984) := by
  rw [div_finite _ (by norm_num)]
  exact roundDouble_eq_of_pos (-55) 6845471433603154 (by norm_num) (by norm_num) (by norm_num)
    (by norm_num) (roundHalfEven_eq_of_near (by rw [abs_lt]; constructor <;> norm_num))
    (by norm_num) (by norm_num)

theorem mul_4_nineteen :
    JSNumber.finite 4 * JSNumber.finite (3422735716801577 / 18014398509481984) = JSNumber.finite (3422735716801577 / 4503599627370496) := by
  show roundDouble (4 * (3422735716801577 / 18014398509481984)) = _
  exact roundDouble_eq_of_pos (-53) 6845471433603154 (by norm_num) (by norm_num) (by norm_num)
    (by norm_num) (roundHalfEven_eq_of_near (by rw [abs_lt]; constructor <;> norm_num))
    (by norm_num) (by norm_num)

theorem mul_nineteen_15 :
    JSNumber.finite (3422735716801577 / 4503599627370496) * JSNumber.finite 15 = JSNumber.finite (6417629469002957 / 562949953421312) := by
  show roundDouble ((3422735716801577 / 4503599627370496) * 15) = _
  exact roundDouble_eq_of_pos (-49) 6417629469002957 (by norm_num) (by norm_num) (by norm_num)
    (by norm_num) (roundHalfEven_eq_of_near (by rw [abs_lt]; constructor <;> norm_num))
    (by norm_num) (by norm_num)

theorem mul_fifteen_5 :
    JSNumber.finite (6417629469002957 / 562949953421312) * JSNumber.finite 5 = JSNumber.finite 57 := by
  show roundDouble ((6417629469002957 / 562949953421312) * 5) = _
  exact roundDouble_eq_of_pos (-47) 8022036836253696 (by norm_num) (by norm_num) (by norm_num)
    (by norm_num) (roundHalfEven_eq_of_near (by rw [abs_lt]; constructor <;> norm_num))
    (by norm_num) (by norm_num)

theorem mul_five_0_95 :
    JSNumber.finite 57 * JSNumber.finite (4278419646001971 / 4503599627370496) = JSNumber.finite (7620934994441011 / 140737488355328) := by
  show roundDouble (57 * (4278419646001971 / 4503599627370496)) = _
  exact roundDouble_eq_of_pos (-47) 7620934994441011 (by norm_num) (by norm_num) (by norm_num)
    (by norm_num) (roundHalfEven_eq_of_near (by rw [abs_lt]; constructor <;> norm_num))
    (by norm_num) (by norm_num)

theorem mul_hourly_0_9 :
    JSNumber.finite (7620934994441011 / 140737488355328) * JSNumber.finite (8106479329266893 / 9007199254740992) = JSNumber.finite (3429420747498455 / 70368744177664) := by
  show roundDouble ((7620934994441011 / 140737488355328) * (8106479329266893 / 9007199254740992)) = _
  exact roundDouble_eq_of_pos (-47) 6858841494996910 (by norm_num) (by norm_num) (by norm_num)
    (by norm_num) (roundHalfEven_eq_of_near (by rw [abs_lt]; constructor <;> norm_num))
    (by norm_num) (by norm_num)

theorem toFixed2_hourly_poly :
    toFixed2 (JSNumber.finite (3429420747498455 / 70368744177664)) = lit 48.73 :=
  toFixed2_eq_lit (4873) (by norm_num) (by norm_num) (by norm_num) (by norm_num)
    (by norm_num)

/-! ## The Polycrystalline configuration at -5 V -/

theorem lit_neg_five :
    lit (-5) = JSNumber.finite (-5) := by
  show roundDouble ((-5)) = _
  exact roundDouble_eq_of_neg (-50) 5629499534213120 (by norm_num) (by norm_num) (by norm_num)
    (by norm_num) (roundHalfEven_eq_of_near (by rw [abs_lt]; constructor <;> norm_num))
    (by norm_num) (by norm_num)

theorem lit_neg_14_53 :
    lit (-14.53) = JSNumber.finite (-(8179662823211663 / 562949953421312)) := by
  show roundDouble ((-14.53)) = _
  exact roundDouble_eq_of_neg (-49) 8179662823211663 (by norm_num) (by norm_num) (by norm_num)
    (by norm_num) (roundHalfEven_eq_of_near (by rw [abs_lt]; constructor <;> norm_num))
    (by norm_num) (by norm_num)

theorem mul_eff_neg_5 :
    JSNumber.finite (3242591731706757 / 4503599627370496) * JSNumber.finite (-5) = JSNumber.finite (-(2026619832316723 / 562949953421312)) := by
  show roundDouble ((3242591731706757 / 4503599627370496) * (-5)) = _
  exact roundDouble_eq_of_neg (-51) 8106479329266892 (by norm_num) (by norm_num) (by norm_num)
    (by norm_num) (roundHalfEven_tie_down (by norm_num) (by norm_num))
    (by norm_num) (by norm_num)

theorem mul_neg_volt_5 :
    JSNumber.finite (-(2026619832316723 / 562949953421312)) * JSNumber.finite 5 = JSNumber.finite (-18) := by
  show roundDouble ((-(2026619832316723 / 562949953421312)) * 5) = _
  exact roundDouble_eq_of_neg (-48) 5066549580791808 (by norm_num) (by norm_num) (by norm_num)
    (by norm_num) (roundHalfEven_tie_up (by norm_num) (by norm_num))
    (by norm_num) (by norm_num)

theorem mul_neg_cur_0_95 :
    JSNumber.finite (-18) * JSNumber.finite (4278419646001971 / 4503599627370496) = JSNumber.finite (-(4813222101752217 / 281474976710656)) := by
  show roundDouble ((-18) * (4278419646001971 / 4503599627370496)) = _
  exact roundDouble_eq_of_neg (-48) 4813222101752217 (by norm_num) (by norm_num) (by norm_num)
    (by norm_num) (roundHalfEven_eq_of_near (by rw [abs_lt]; constructor <;> norm_num))
    (by norm_num) (by norm_num)

theorem mul_neg_poly_0_85 :
    JSNumber.finite (-(4813222101752217 / 281474976710656)) * JSNumber.finite (7656119366529843 / 9007199254740992) = JSNumber.finite (-(8182477572978769 / 562949953421312)) := by
  show roundDouble ((-(4813222101752217 / 281474976710656)) * (7656119366529843 / 9007199254740992)) = _
  exact roundDouble_eq_of_neg (-49) 8182477572978769 (by norm_num) (by norm_num) (by norm_num)
    (by norm_num) (roundHalfEven_eq_of_near (by rw [abs_lt]; constructor <;> norm_num))
    (by norm_num) (by norm_num)

theorem toFixed2_neg_poly :
    toFixed2 (JSNumber.finite (-(8182477572978769 / 562949953421312))) = lit (-14.53) :=
  toFixed2_eq_lit (-1453) (by norm_num) (by norm_num) (by norm_num) (by norm_num)
    (by norm_num)

/-! ## The overflowing configuration -/

theorem div_100_100 :
    JSNumber.finite 100 / JSNumber.finite 100 = JSNumber.finite 1 := by
  rw [div_finite _ (by norm_num)]
  exact roundDouble_eq_of_pos (-52) 4503599627370496 (by norm_num) (by norm_num) (by norm_num)
    (by norm_num) (roundHalfEven_eq_of_near (by rw [abs_lt]; constructor <;> norm_num))
    (by norm_num) (by norm_num)

theorem mul_4_one :
    JSNumber.finite 4 * JSNumber.finite 1 = JSNumber.finite 4 := by
  show roundDouble (4 * 1) = _
  exact roundDouble_eq_of_pos (-50) 4503599627370496 (by norm_num) (by norm_num) (by norm_num)
    (by norm_num) (roundHalfEven_eq_of_near (by rw [abs_lt]; constructor <;> norm_num))
    (by norm_num) (by norm_num)

/-! ## The noise factors -/

/-- The noise factor `Math.random() * k + b` is a finite double between `b` and the double
of `k + b`. -/
theorem noise_between {r ck cb chi : ℚ} (h0 : 0 ≤ r) (h1 : r < 1) (hk0 : 0 ≤ ck)
    (hk : roundDouble ck = JSNumber.finite ck) (hb : roundDouble cb = JSNumber.finite cb)
    (hs : JSNumber.finite ck + JSNumber.finite cb = JSNumber.finite chi) :
    ∃ t, JSNumber.finite r * JSNumber.finite ck + JSNumber.finite cb = JSNumber.finite t ∧
      cb ≤ t ∧ t ≤ chi := by
  have hlo : JSNumber.finite 0 ≤ roundDouble (r * ck) :=
    roundDouble_nonneg (mul_nonneg h0 hk0)
  have hhi : roundDouble (r * ck) ≤ JSNumber.finite ck := by
    have := roundDouble_mono (show r * ck ≤ ck by nlinarith)
    rwa [hk] at this
  obtain ⟨t1, ht1, h10, h1k⟩ := finite_of_between hlo hhi
  rw [mul_finite, ht1, add_finite]
  have hlo2 : JSNumber.finite cb ≤ roundDouble (t1 + cb) := by
    have := roundDouble_mono (show cb ≤ t1 + cb by linarith)
    rwa [hb] at this
  have hhi2 : roundDouble (t1 + cb) ≤ JSNumber.finite chi := by
    have e : roundDouble (ck + cb) = JSNumber.finite chi := hs
    have := roundDouble_mono (show t1 + cb ≤ ck + cb by linarith)
    rwa [e] at this
  obtain ⟨t, ht, hbt, hti⟩ := finite_of_between hlo2 hhi2
  exact ⟨t, ht, hbt, hti⟩

/-- The hourly noise factor is a positive finite double between the doubles `0.9` and
`1.1`. -/
theorem hourly_noise (r : Draw) :
    ∃ t, JSNumber.finite r.val * lit 0.2 + lit 0.9 = JSNumber.finite t ∧ 0 < t ∧
      lit 0.9 ≤ JSNumber.finite t ∧ JSNumber.finite t ≤ lit 1.1 := by
  rw [lit_0_2, lit_0_9, lit_1_1]
  obtain ⟨t, ht, h1, h2⟩ := noise_between r.nonneg r.lt_one (by norm_num)
    roundDouble_0_2 roundDouble_0_9 add_0_2_0_9
  exact ⟨t, ht, lt_of_lt_of_le (by norm_num) h1, finite_le_finite.mpr h1,
    finite_le_finite.mpr h2⟩

/-- The daily noise factor is a positive finite double between the doubles `0.85` and
`1.15`. -/
theorem daily_noise (r : Draw) :
    ∃ t, JSNumber.finite r.val * lit 0.3 + lit 0.85 = JSNumber.finite t ∧ 0 < t ∧
      lit 0.85 ≤ JSNumber.finite t ∧ JSNumber.finite t ≤ lit 1.15 := by
  rw [lit_0_3, lit_0_85, lit_1_15]
  obtain ⟨t, ht, h1, h2⟩ := noise_between r.nonneg r.lt_one (by norm_num)
    roundDouble_0_3 roundDouble_0_85 add_0_3_0_85
  exact ⟨t, ht, lt_of_lt_of_le (by norm_num) h1, finite_le_finite.mpr h1,
    finite_le_finite.mpr h2⟩

/-! ## The shape of the three generated series -/

theorem length_arrayFrom {α : Type} (length : Option ℕ) (f : ℕ → α) :
    (arrayFrom length f).length = length.getD 0 := by
  simp [arrayFrom]

theorem getElem?_arrayFrom {α : Type} (length : Option ℕ) (f : ℕ → α) {i : ℕ}
    (hi : i < length.getD 0) : (arrayFrom length f)[i]? = some (f i) := by
  simp [arrayFrom, List.getElem?_map, List.getElem?_range hi]

theorem mem_hourlyData {cfg : Config} {rand : ℕ → Draw} {p : EnergyPoint}
    (hp : p ∈ hourlyData cfg rand) :
    ∃ h, h < 24 ∧ p.name = toString h ++ ":00" ∧
      p.energy = toFixed2 (dailyEnergy cfg
        * (JSNumber.finite (rand h).val * lit 0.2 + lit 0.9)) := by
  simp only [hourlyData, arrayFrom, List.mem_map, List.mem_range, Option.getD_some] at hp
  obtain ⟨h, hlt, rfl⟩ := hp
  exact ⟨h, hlt, rfl, rfl⟩

theorem mem_dailyResult {cfg : Config} {rand : ℕ → Draw} {p : EnergyPoint}
    (hp : p ∈ dailyResult cfg rand) :
    ∃ idx, idx < (daysInMonth cfg.month).getD 0 ∧ p.name = "Day " ++ toString (idx + 1) ∧
      p.energy = toFixed2 (dailyEnergy cfg
        * (JSNumber.finite (rand (24 + idx)).val * lit 0.3 + lit 0.85)) := by
  simp only [dailyResult, arrayFrom, List.mem_map, List.mem_range] at hp
  obtain ⟨idx, hlt, rfl⟩ := hp
  exact ⟨idx, hlt, rfl, rfl⟩

theorem mem_yearlyFrom {cfg : Config} {rand : ℕ → Draw} {p : EnergyPoint} :
    ∀ (ms : List String) (call : ℕ), p ∈ yearlyFrom cfg rand call ms →
      ∃ k, k < ms.length ∧ ms[k]? = some p.name ∧
        p.energy = (match daysInMonth p.name with
          | some daysIn =>
            toFixed2 (dailyEnergy cfg
              * (JSNumber.finite (rand (call + k)).val * lit 0.3 + lit 0.85)
              * JSNumber.finite daysIn)
          | none =>
            toFixed2 (dailyEnergy cfg
              * (JSNumber.finite (rand (call + k)).val * lit 0.3 + lit 0.85)
              * JSNumber.nan)) := by
  intro ms
  induction ms with
  | nil => intro call hp; simp [yearlyFrom] at hp
  | cons m ms ih =>
    intro call hp
    simp only [yearlyFrom, List.mem_cons] at hp
    rcases hp with rfl | hp
    · exact ⟨0, by simp, by simp, by simp⟩
    · obtain ⟨k, hk, hname, he⟩ := ih (call + 1) hp
      refine ⟨k + 1, by simpa using hk, by simpa using hname, ?_⟩
      rw [he, Nat.add_assoc, Nat.add_comm 1 k]

theorem yearlyFrom_names (cfg : Config) (rand : ℕ → Draw) :
    ∀ (ms : List String) (call : ℕ),
      (yearlyFrom cfg rand call ms).map EnergyPoint.name = ms := by
  intro ms
  induction ms with
  | nil => intro call; rfl
  | cons m ms ih => intro call; simp [yearlyFrom, ih]

theorem yearlyFrom_congr (cfg cfg2 : Config) (rand rand2 : ℕ → Draw)
    (he : dailyEnergy cfg2 = dailyEnergy cfg) :
    ∀ (ms : List String) (call call2 : ℕ),
      (∀ k, k < ms.length → (rand2 (call2 + k)).val = (rand (call + k)).val) →
      yearlyFrom cfg2 rand2 call2 ms = yearlyFrom cfg rand call ms := by
  intro ms
  induction ms with
  | nil => intro call call2 _; rfl
  | cons m ms ih =>
    intro call call2 h
    have h0 : (rand2 call2).val = (rand call).val := by
      simpa using h 0 (by simp)
    have ht : yearlyFrom cfg2 rand2 (call2 + 1) ms = yearlyFrom cfg rand (call + 1) ms := by
      apply ih
      intro k hk
      have := h (k + 1) (by simpa using hk)
      rwa [Nat.add_assoc, Nat.add_comm 1 k, Nat.add_assoc, Nat.add_comm 1 k]
    simp only [yearlyFrom, he, h0, ht]

theorem daysInMonth_pos {m : String} (hm : m ∈ months) {d : ℕ}
    (h : daysInMonth m = some d) : 0 < d := by
  simp only [months, List.mem_cons, List.mem_singleton, List.not_mem_nil, or_false] at hm
  rcases hm with rfl | rfl | rfl | rfl | rfl | rfl | rfl | rfl | rfl | rfl | rfl | rfl <;>
    (simp [daysInMonth] at h; omega)

theorem name_mem_months_of_mem_yearly {cfg : Config} {rand : ℕ → Draw} {p : EnergyPoint}
    (hp : p ∈ yearly cfg rand) : p.name ∈ months := by
  have h := yearlyFrom_names cfg rand months (24 + (daysInMonth cfg.month).getD 0)
  have : p.name ∈ (yearly cfg rand).map EnergyPoint.name := List.mem_map_of_mem _ hp
  rwa [yearly, h] at this

/-! ## Signs -/

theorem hasSign_finite (a : ℚ) : HasSign (JSNumber.finite a) a :=
  Or.inr ⟨fun h => finite_le_finite.mpr h, fun h => finite_le_finite.mpr h⟩

theorem hasSign_roundDouble (q : ℚ) : HasSign (roundDouble q) q :=
  Or.inr ⟨roundDouble_nonpos, roundDouble_nonneg⟩

theorem hasSign_of_nonneg {x : JSNumber} (h : JSNumber.finite 0 ≤ x) : HasSign x 1 :=
  Or.inr ⟨fun h1 => absurd h1 (by norm_num), fun _ => h⟩

theorem hasSign_of_imp {x : JSNumber} {s t : ℚ} (h : HasSign x s) (h1 : t ≤ 0 → s ≤ 0)
    (h2 : 0 ≤ t → 0 ≤ s) : HasSign x t := by
  rcases h with h | ⟨ha, hb⟩
  · exact Or.inl h
  · exact Or.inr ⟨fun ht => ha (h1 ht), fun ht => hb (h2 ht)⟩

theorem sign_algebra {s t a b : ℚ} (ha1 : s ≤ 0 → a ≤ 0) (ha2 : 0 ≤ s → 0 ≤ a)
    (hb1 : t ≤ 0 → b ≤ 0) (hb2 : 0 ≤ t → 0 ≤ b) :
    (s * t ≤ 0 → a * b ≤ 0) ∧ (0 ≤ s * t → 0 ≤ a * b) := by
  constructor
  · intro h
    rcases mul_nonpos_iff.mp h with ⟨h1, h2⟩ | ⟨h1, h2⟩
    · exact mul_nonpos_iff.mpr (Or.inl ⟨ha2 h1, hb1 h2⟩)
    · exact mul_nonpos_iff.mpr (Or.inr ⟨ha1 h1, hb2 h2⟩)
  · intro h
    rcases mul_nonneg_iff.mp h with ⟨h1, h2⟩ | ⟨h1, h2⟩
    · exact mul_nonneg (ha2 h1) (hb2 h2)
    · exact mul_nonneg_of_nonpos_of_nonpos (ha1 h1) (hb1 h2)

/-- The sign of an infinity, as a rational. -/
theorem hasSign_posInf {t : ℚ} (h : HasSign JSNumber.posInf t) :
    (t ≤ 0 → (1 : ℚ) ≤ 0) ∧ (0 ≤ t → (0 : ℚ) ≤ 1) := by
  rcases h with h | ⟨h1, -⟩
  · exact absurd h (by simp)
  · exact ⟨fun ht => False.elim (h1 ht), fun _ => by norm_num⟩

theorem hasSign_negInf {t : ℚ} (h : HasSign JSNumber.negInf t) :
    (t ≤ 0 → (-1 : ℚ) ≤ 0) ∧ (0 ≤ t → (0 : ℚ) ≤ -1) := by
  rcases h with h | ⟨-, h2⟩
  · exact absurd h (by simp)
  · exact ⟨fun _ => by norm_num, fun ht => False.elim (h2 ht)⟩

theorem hasSign_finite_iff {a t : ℚ} (h : HasSign (JSNumber.finite a) t) :
    (t ≤ 0 → a ≤ 0) ∧ (0 ≤ t → 0 ≤ a) := by
  rcases h with h | ⟨h1, h2⟩
  · exact absurd h (by simp)
  · exact ⟨fun ht => finite_le_finite.mp (h1 ht), fun ht => finite_le_finite.mp (h2 ht)⟩

/-- The sign of a product with an infinity whose rational sign is `b`. -/
theorem hasSign_infinite_product {a b u : ℚ} (hb : b = 1 ∨ b = -1)
    (h : (u ≤ 0 → a * b ≤ 0) ∧ (0 ≤ u → 0 ≤ a * b)) :
    HasSign (if a = 0 then JSNumber.nan
      else if a < 0 then (if b = 1 then JSNumber.negInf else JSNumber.posInf)
      else (if b = 1 then JSNumber.posInf else JSNumber.negInf)) u := by
  by_cases h0 : a = 0
  · rw [if_pos h0]; exact Or.inl rfl
  · rw [if_neg h0]
    rcases hb with rfl | rfl
    · by_cases hneg : a < 0
      · rw [if_pos hneg, if_pos rfl]
        refine Or.inr ⟨fun _ => True.intro, fun hu => ?_⟩
        have := h.2 hu
        exact absurd this (by linarith)
      · rw [if_neg hneg, if_pos rfl]
        have hpos : 0 < a := lt_of_le_of_ne (not_lt.mp hneg) (Ne.symm h0)
        refine Or.inr ⟨fun hu => ?_, fun _ => True.intro⟩
        have := h.1 hu
        exact absurd this (by linarith)
    · by_cases hneg : a < 0
      · rw [if_pos hneg, if_neg (by norm_num)]
        refine Or.inr ⟨fun hu => ?_, fun _ => True.intro⟩
        have := h.1 hu
        exact absurd this (by linarith)
      · rw [if_neg hneg, if_neg (by norm_num)]
        have hpos : 0 < a := lt_of_le_of_ne (not_lt.mp hneg) (Ne.symm h0)
        refine Or.inr ⟨fun _ => True.intro, fun hu => ?_⟩
        have := h.2 hu
        exact absurd this (by linarith)

theorem hasSign_mul {x y : JSNumber} {s t : ℚ} (hx : HasSign x s) (hy : HasSign y t) :
    HasSign (x * y) (s * t) := by
  cases x with
  | nan => rw [nan_mul]; exact Or.inl rfl
  | finite a =>
    have ha := hasSign_finite_iff hx
    cases y with
    | nan => rw [mul_nan]; exact Or.inl rfl
    | finite b =>
      have hb := hasSign_finite_iff hy
      have := sign_algebra ha.1 ha.2 hb.1 hb.2
      rw [mul_finite]
      exact Or.inr ⟨fun h => roundDouble_nonpos (this.1 h), fun h => roundDouble_nonneg (this.2 h)⟩
    | posInf =>
      have hb := hasSign_posInf hy
      have := hasSign_infinite_product (Or.inl rfl) (sign_algebra ha.1 ha.2 hb.1 hb.2)
      simpa using this
    | negInf =>
      have hb := hasSign_negInf hy
      have := hasSign_infinite_product (Or.inr rfl) (sign_algebra ha.1 ha.2 hb.1 hb.2)
      have e : ((-1 : ℚ) = 1) = False := by norm_num
      simpa [e] using this
  | posInf =>
    have ha := hasSign_posInf hx
    cases y with
    | nan => rw [mul_nan]; exact Or.inl rfl
    | finite b =>
      have hb := hasSign_finite_iff hy
      have h2 := sign_algebra hb.1 hb.2 ha.1 ha.2
      rw [mul_comm t s] at h2
      have := hasSign_infinite_product (Or.inl rfl) h2
      simpa using this
    | posInf =>
      have hb := hasSign_posInf hy
      have := sign_algebra ha.1 ha.2 hb.1 hb.2
      exact Or.inr ⟨fun h => absurd (this.1 h) (by norm_num), fun _ => True.intro⟩
    | negInf =>
      have hb := hasSign_negInf hy
      have := sign_algebra ha.1 ha.2 hb.1 hb.2
      exact Or.inr ⟨fun _ => True.intro, fun h => absurd (this.2 h) (by norm_num)⟩
  | negInf =>
    have ha := hasSign_negInf hx
    cases y with
    | nan => rw [mul_nan]; exact Or.inl rfl
    | finite b =>
      have hb := hasSign_finite_iff hy
      have h2 := sign_algebra hb.1 hb.2 ha.1 ha.2
      rw [mul_comm t s] at h2
      have := hasSign_infinite_product (Or.inr rfl) h2
      have e : ((-1 : ℚ) = 1) = False := by norm_num
      simpa [e] using this
    | posInf =>
      have hb := hasSign_posInf hy
      have := sign_algebra ha.1 ha.2 hb.1 hb.2
      exact Or.inr ⟨fun _ => True.intro, fun h => absurd (this.2 h) (by norm_num)⟩
    | negInf =>
      have hb := hasSign_negInf hy
      have := sign_algebra ha.1 ha.2 hb.1 hb.2
      exact Or.inr ⟨fun h => absurd (this.1 h) (by norm_num), fun _ => True.intro⟩

theorem hasSign_div_hundred {x : JSNumber} {s : ℚ} (h : HasSign x s) :
    HasSign (x / lit 100) s := by
  rw [lit_hundred]
  cases x with
  | nan => exact Or.inl rfl
  | finite a =>
    have ha := hasSign_finite_iff h
    rw [div_finite _ (by norm_num)]
    exact Or.inr ⟨fun hs => roundDouble_nonpos (div_nonpos_of_nonpos_of_nonneg (ha.1 hs) (by norm_num)),
      fun hs => roundDouble_nonneg (div_nonneg (ha.2 hs) (by norm_num))⟩
  | posInf =>
    have e : JSNumber.posInf / JSNumber.finite 100 = JSNumber.posInf := by
      show JSNumber.div _ _ = _
      simp [JSNumber.div]
    rw [e]; exact h
  | negInf =>
    have e : JSNumber.negInf / JSNumber.finite 100 = JSNumber.negInf := by
      show JSNumber.div _ _ = _
      simp [JSNumber.div]
    rw [e]; exact h

theorem toFixed2_zero : toFixed2 (JSNumber.finite 0) = JSNumber.finite 0 := by
  have h : decimalRound 0 = 0 := by
    have := decimalRound_hundredths 0
    simpa using this
  rw [toFixed2_finite, if_neg (by norm_num), h, roundDouble_zero]

theorem hasSign_toFixed2 {x : JSNumber} {s : ℚ} (h : HasSign x s) :
    HasSign (toFixed2 x) s := by
  rcases h with rfl | ⟨h1, h2⟩
  · exact Or.inl rfl
  · refine Or.inr ⟨fun hs => ?_, fun hs => ?_⟩
    · have := toFixed2_mono (h1 hs)
      rwa [toFixed2_zero] at this
    · have := toFixed2_mono (h2 hs)
      rwa [toFixed2_zero] at this

theorem hasSign_factor (panelType : String) : HasSign (factor panelType) 1 := by
  unfold factor lit
  split_ifs
  · exact hasSign_roundDouble 1
  · exact hasSign_of_imp (hasSign_roundDouble 0.95) (fun h => absurd h (by norm_num))
      (fun _ => by norm_num)
  · exact hasSign_of_imp (hasSign_roundDouble 0.9) (fun h => absurd h (by norm_num))
      (fun _ => by norm_num)

/-- The nominal daily energy has the sign of `efficiency * voltage * current`, or is
`NaN`. -/
theorem hasSign_dailyEnergy (cfg : Config) {e v c : ℚ} (he : HasSign cfg.efficiency e)
    (hv : HasSign cfg.voltage v) (hc : HasSign cfg.current c) :
    HasSign (dailyEnergy cfg) (e * v * c) := by
  have h4 : HasSign baseIrradiance 4 := hasSign_roundDouble 4
  have h := hasSign_mul (hasSign_mul (hasSign_mul (hasSign_mul h4 (hasSign_div_hundred he)) hv)
    hc) (hasSign_factor cfg.panelType)
  refine hasSign_of_imp h (fun ht => ?_) (fun ht => ?_)
  · have : 4 * e * v * c * 1 = 4 * (e * v * c) := by ring
    rw [this]; linarith
  · have : 4 * e * v * c * 1 = 4 * (e * v * c) := by ring
    rw [this]; linarith

/-- A product by a positive finite number grows with its other factor. -/
theorem jsmul_le_jsmul_right {x y : JSNumber} (h : x ≤ y) {d : ℚ} (hd : 0 < d) :
    x * JSNumber.finite d ≤ y * JSNumber.finite d := by
  have e1 : JSNumber.posInf * JSNumber.finite d = JSNumber.posInf := by
    show JSNumber.mul _ _ = _
    simp [JSNumber.mul, hd.ne', not_lt.mpr hd.le]
  have e2 : JSNumber.negInf * JSNumber.finite d = JSNumber.negInf := by
    show JSNumber.mul _ _ = _
    simp [JSNumber.mul, hd.ne', not_lt.mpr hd.le]
  cases x with
  | nan => exact (not_nan_le _ h).elim
  | finite a =>
    cases y with
    | nan => exact (not_le_nan _ h).elim
    | finite b =>
      rw [mul_finite, mul_finite]
      exact roundDouble_mono (mul_le_mul_of_nonneg_right (finite_le_finite.mp h) hd.le)
    | posInf => rw [e1, mul_finite]; exact le_posInf (roundDouble_ne_nan _)
    | negInf => exact False.elim h
  | posInf =>
    cases y with
    | posInf => rw [e1]; exact True.intro
    | nan => exact (not_le_nan _ h).elim
    | finite b => exact False.elim h
    | negInf => exact False.elim h
  | negInf =>
    cases y with
    | nan => exact (not_le_nan _ h).elim
    | finite b => rw [e2, mul_finite]; exact negInf_le (roundDouble_ne_nan _)
    | posInf => rw [e1, e2]; exact True.intro
    | negInf => rw [e2]; exact True.intro

/-! ## Texts -/

theorem digitChar_ne_newline (d : ℕ) (h : d < 10) : Nat.digitChar d ≠ '\n' := by
  interval_cases d <;> decide

theorem toDigitsCore_no_newline : ∀ (fuel n : ℕ) (ds : List Char),
    '\n' ∉ ds → '\n' ∉ Nat.toDigitsCore 10 fuel n ds := by
  intro fuel
  induction fuel with
  | zero => intro n ds h; simpa [Nat.toDigitsCore] using h
  | succ fuel ih =>
    intro n ds h
    have hc : '\n' ∉ Nat.digitChar (n % 10) :: ds := by
      simp only [List.mem_cons, not_or]
      exact ⟨(digitChar_ne_newline _ (Nat.mod_lt _ (by decide))).symm, h⟩
    simp only [Nat.toDigitsCore]
    split_ifs
    · exact hc
    · exact ih _ _ hc

theorem toString_nat_no_newline (n : ℕ) : '\n' ∉ (toString n).data := by
  show '\n' ∉ (Nat.repr n).data
  simp only [Nat.repr, Nat.toDigits, List.asString]
  exact toDigitsCore_no_newline _ _ _ (by simp)

theorem hundredthsToString_no_newline (n : ℤ) : '\n' ∉ (hundredthsToString n).data := by
  have h := toString_nat_no_newline
  unfold hundredthsToString
  split_ifs <;> simp [String.data_append, h]

theorem printEnergy_no_newline (x : JSNumber) : '\n' ∉ (printEnergy x).data := by
  cases x with
  | finite q => exact hundredthsToString_no_newline _
  | posInf => decide
  | negInf => decide
  | nan => decide

theorem hundredthsToString_examples :
    hundredthsToString 4320 = "43.2" ∧ hundredthsToString 3888 = "38.88" ∧
      hundredthsToString 5 = "0.05" ∧ hundredthsToString (-50) = "-0.5" ∧
      hundredthsToString 0 = "0" ∧ hundredthsToString 113832 = "1138.32" := by
  decide

theorem intercalate_go_data (sep : String) : ∀ (xs : List String) (acc : String),
    (String.intercalate.go acc sep xs).data
      = acc.data ++ (xs.map fun a => sep.data ++ a.data).flatten := by
  intro xs
  induction xs with
  | nil => intro acc; simp [String.intercalate.go]
  | cons a xs ih => intro acc; simp [String.intercalate.go, ih, List.append_assoc]

theorem intercalate_cons (sep : List Char) (a : List Char) (xs : List (List Char)) :
    sep.intercalate (a :: xs) = a ++ (xs.map fun b => sep ++ b).flatten := by
  induction xs generalizing a with
  | nil => simp [List.intercalate]
  | cons b xs ih =>
    have := ih b
    simp only [List.intercalate, List.intersperse] at this ⊢
    simp [this]

theorem join_data (sep : String) (xs : List String) (h : xs ≠ []) :
    (join xs sep).data = sep.data.intercalate (xs.map String.data) := by
  cases xs with
  | nil => exact absurd rfl h
  | cons a xs =>
    rw [join, String.intercalate, intercalate_go_data, List.map_cons, intercalate_cons]
    simp only [List.map_map]
    rfl

theorem join_pair (a b sep : String) : join [a, b] sep = a ++ sep ++ b := rfl

theorem split_join_newline (lines : List String) (hne : lines ≠ [])
    (h : ∀ l ∈ lines, '\n' ∉ l.data) : split (join lines "\n") '\n' = lines := by
  have hd : (join lines "\n").data = ['\n'].intercalate (lines.map String.data) :=
    join_data "\n" lines hne
  have hs : (['\n'].intercalate (lines.map String.data)).splitOn '\n'
      = lines.map String.data := by
    apply List.splitOn_intercalate
    · intro l hl
      obtain ⟨s, hs, rfl⟩ := List.mem_map.mp hl
      exact h s hs
    · simpa using hne
  rw [split, hd, hs, List.map_map]
  have : (String.mk ∘ String.data) = id := by
    funext s
    rfl
  rw [this, List.map_id]

/-- The text exported for the two points of `sampleSeries`. -/
theorem exportToCSV_sampleSeries :
    exportToCSV printEnergy sampleSeries
      = Except.ok "name,energy\nJanuary,1138.32\nFebruary,1209.6" := by
  have f1 : ⌊((5006384304519905 / 4398046511104) : ℚ) * 100 + 1 / 2⌋ = 113832 := by
    rw [Int.floor_eq_iff]; constructor <;> norm_num
  have f2 : ⌊((2659938529915699 / 2199023255552) : ℚ) * 100 + 1 / 2⌋ = 120960 := by
    rw [Int.floor_eq_iff]; constructor <;> norm_num
  have h1 : printEnergy (lit 1138.32) = "1138.32" := by
    rw [lit_1138_32]
    show hundredthsToString ⌊((5006384304519905 / 4398046511104) : ℚ) * 100 + 1 / 2⌋ = _
    rw [f1]; decide
  have h2 : printEnergy (lit 1209.6) = "1209.6" := by
    rw [lit_1209_6]
    show hundredthsToString ⌊((2659938529915699 / 2199023255552) : ℚ) * 100 + 1 / 2⌋ = _
    rw [f2]; decide
  simp only [exportToCSV, sampleSeries, List.map, h1, h2]
  exact congrArg Except.ok (by decide)

/-! ## The nominal daily energy of the examples -/

theorem dailyEnergy_of_default {cfg : Config} (he : cfg.efficiency = lit 18)
    (hv : cfg.voltage = lit 12) (hc : cfg.current = lit 5)
    (hp : cfg.panelType = "Monocrystalline") : dailyEnergy cfg = lit 43.2 := by
  unfold dailyEnergy baseIrradiance factor
  rw [he, hv, hc, hp, if_pos rfl, lit_four, lit_eighteen, lit_hundred, div_18_100, mul_4_eff,
    lit_twelve, mul_eff_12, lit_five, mul_volt_5, lit_one, mul_cur_1, lit_43_2]

theorem dailyEnergy_of_thinFilm {cfg : Config} (he : cfg.efficiency = lit 18)
    (hv : cfg.voltage = lit 12) (hc : cfg.current = lit 5)
    (hp : cfg.panelType = "Thin-Film") : dailyEnergy cfg = lit 38.88 := by
  unfold dailyEnergy baseIrradiance factor
  rw [he, hv, hc, hp, if_neg (by decide), if_neg (by decide), lit_four, lit_eighteen,
    lit_hundred, div_18_100, mul_4_eff, lit_twelve, mul_eff_12, lit_five, mul_volt_5, lit_0_9,
    mul_cur_0_9, lit_38_88]

theorem dailyEnergy_negativeConfig : dailyEnergy negativeConfig = lit 43.2 := by
  show lit 4 * (lit (-18) / lit 100) * lit (-12) * lit 5 * lit 1 = lit 43.2
  rw [lit_four, lit_neg_eighteen, lit_hundred, div_neg_18_100, mul_4_neg_eff, lit_neg_twelve,
    mul_neg_eff_neg_12, lit_five, mul_volt_5, lit_one, mul_cur_1, lit_43_2]

/-- With 18 %, Polycrystalline, 5 V and 5 A the nominal daily energy is the double
`17.099999999999998`, not the double of `17.1`, and the daily point for a draw of 0 is
`14.53`: `toFixed(2)` rounds the double `14.534999999999998`. -/
theorem polyConfig_daily_point :
    dailyEnergy polyConfig = JSNumber.finite (4813222101752217 / 281474976710656) ∧
      dailyEnergy polyConfig ≠ lit 17.1 ∧
      ((dailyResult polyConfig zeroDraws)[0]?).map EnergyPoint.energy = some (lit 14.53) := by
  have hn : dailyEnergy polyConfig = JSNumber.finite (4813222101752217 / 281474976710656) := by
    show lit 4 * (lit 18 / lit 100) * lit 5 * lit 5 * lit 0.95 = _
    rw [lit_four, lit_eighteen, lit_hundred, div_18_100, mul_4_eff, lit_five, mul_eff_5,
      mul_volt5_5, lit_0_95, mul_cur_0_95]
  have h171 : lit 17.1 = JSNumber.finite (2406611050876109 / 140737488355328) := by
    show roundDouble 17.1 = _
    exact roundDouble_eq_of_pos (-48) 4813222101752218 (by norm_num) (by norm_num)
      (by norm_num) (by norm_num)
      (roundHalfEven_eq_of_near (by rw [abs_lt]; constructor <;> norm_num))
      (by norm_num) (by norm_num)
  refine ⟨hn, ?_, ?_⟩
  · rw [hn, h171]
    intro h
    exact absurd (JSNumber.finite.inj h) (by norm_num)
  · have hp : (dailyResult polyConfig zeroDraws)[0]?
        = some ⟨"Day 1", toFixed2 (dailyEnergy polyConfig
            * (JSNumber.finite 0 * lit 0.3 + lit 0.85))⟩ :=
      getElem?_arrayFrom _ _ (by decide)
    rw [hp, hn, lit_0_3, mul_zero_0_3, lit_0_85, add_zero_0_85, mul_poly_0_85, toFixed2_poly]
    rfl

/-- With 25 %, Monocrystalline, 1 V and 0.5 A the nominal daily energy is exactly `0.5`
and the daily point for a draw of 0 is `0.42`: the double of `0.85` is below `0.85`. -/
theorem quarterConfig_daily_point :
    dailyEnergy quarterConfig = lit 0.5 ∧
      ((dailyResult quarterConfig zeroDraws)[0]?).map EnergyPoint.energy = some (lit 0.42) := by
  have hn : dailyEnergy quarterConfig = JSNumber.finite (1 / 2) := by
    show lit 4 * (lit 25 / lit 100) * lit 1 * lit 0.5 * lit 1 = _
    rw [lit_four, lit_twenty_five, lit_hundred, div_25_100, mul_4_quarter, lit_one,
      mul_one_one, lit_0_5, mul_one_half, mul_half_one]
  refine ⟨by rw [hn, lit_0_5], ?_⟩
  have hp : (dailyResult quarterConfig zeroDraws)[0]?
      = some ⟨"Day 1", toFixed2 (dailyEnergy quarterConfig
          * (JSNumber.finite 0 * lit 0.3 + lit 0.85))⟩ :=
    getElem?_arrayFrom _ _ (by decide)
  rw [hp, hn, lit_0_3, mul_zero_0_3, lit_0_85, add_zero_0_85, mul_half_0_85, toFixed2_half]
  rfl

/-- With 19 %, Polycrystalline, 15 V and 5 A the hourly point for a draw of 0 is `48.73`,
where exact arithmetic would give `48.735` and so `48.74`. -/
theorem hourlyPolyConfig_hourly_point :
    ((hourlyData hourlyPolyConfig zeroDraws)[0]?).map EnergyPoint.energy
      = some (lit 48.73) := by
  have hp : (hourlyData hourlyPolyConfig zeroDraws)[0]?
      = some ⟨"0:00", toFixed2 (lit 4 * (lit 19 / lit 100) * lit 15 * lit 5 * lit 0.95
          * (JSNumber.finite 0 * lit 0.2 + lit 0.9))⟩ :=
    getElem?_arrayFrom _ _ (by decide)
  rw [hp, lit_four, lit_nineteen, lit_hundred, div_19_100, mul_4_nineteen, lit_fifteen,
    mul_nineteen_15, lit_five, mul_fifteen_5, lit_0_95, mul_five_0_95, lit_0_2, mul_zero_0_2,
    lit_0_9, add_zero_0_9, mul_hourly_0_9, toFixed2_hourly_poly]
  rfl

/-- With 18 %, Polycrystalline, -5 V and 5 A the daily point for a draw of 0 is `-14.53`:
`toFixed(2)` rounds the size of the double `-14.534999999999998`. -/
theorem negativePolyConfig_daily_point :
    ((dailyResult negativePolyConfig zeroDraws)[0]?).map EnergyPoint.energy
      = some (lit (-14.53)) := by
  have hp : (dailyResult negativePolyConfig zeroDraws)[0]?
      = some ⟨"Day 1", toFixed2 (lit 4 * (lit 18 / lit 100) * lit (-5) * lit 5 * lit 0.95
          * (JSNumber.finite 0 * lit 0.3 + lit 0.85))⟩ :=
    getElem?_arrayFrom _ _ (by decide)
  rw [hp, lit_four, lit_eighteen, lit_hundred, div_18_100, mul_4_eff, lit_neg_five,
    mul_eff_neg_5, lit_five, mul_neg_volt_5, lit_0_95, mul_neg_cur_0_95, lit_0_3,
    mul_zero_0_3, lit_0_85, add_zero_0_85, mul_neg_poly_0_85, toFixed2_neg_poly]
  rfl

/-- With efficiency 100, voltage `2 ^ 1023` and current 0 the product `4 * 1 * 2 ^ 1023`
overflows to `Infinity` and `Infinity * 0` is `NaN`. -/
theorem dailyEnergy_overflowConfig : dailyEnergy overflowConfig = JSNumber.nan := by
  show lit 4 * (lit 100 / lit 100) * JSNumber.finite (2 ^ 1023) * lit 0 * lit 1 = _
  have h1 : JSNumber.finite 4 * JSNumber.finite (2 ^ 1023) = JSNumber.posInf := by
    rw [mul_finite]
    exact roundDouble_overflow (by norm_num)
  have h2 : JSNumber.posInf * JSNumber.finite 0 = JSNumber.nan := by
    show JSNumber.mul _ _ = _
    simp [JSNumber.mul]
  rw [lit_four, lit_hundred, div_100_100, mul_4_one, h1, lit_zero, h2, nan_mul]

/-! ## The envelope of the noise -/

/-- The nominal daily energy of non-negative inputs is non-negative or `NaN`. -/
theorem dailyEnergy_nonneg {cfg : Config} (he : lit 0 ≤ cfg.efficiency)
    (hv : lit 0 ≤ cfg.voltage) (hc : lit 0 ≤ cfg.current)
    (hn : dailyEnergy cfg ≠ JSNumber.nan) : JSNumber.finite 0 ≤ dailyEnergy cfg := by
  rw [lit_zero] at he hv hc
  have h := hasSign_dailyEnergy cfg (hasSign_of_nonneg he) (hasSign_of_nonneg hv)
    (hasSign_of_nonneg hc)
  rcases h with h | ⟨-, h⟩
  · exact absurd h hn
  · exact h (by norm_num)

/-- A non-negative `n` times a literal is at most `n` times a factor above the literal. -/
theorem literal_mul_le {n k : JSNumber} (hn : JSNumber.finite 0 ≤ n) {a t : ℚ}
    (hk : k = JSNumber.finite a) (ha : 0 < a) (hat : k ≤ JSNumber.finite t) :
    k * n ≤ n * JSNumber.finite t := by
  subst hk
  rw [jsmul_comm]
  exact jsmul_le_jsmul_left hn ha (finite_le_finite.mp hat)

/-- A non-negative `n` times a positive factor is at most `n` times a literal above the
factor. -/
theorem mul_le_literal {n k : JSNumber} (hn : JSNumber.finite 0 ≤ n) {b t : ℚ}
    (hk : k = JSNumber.finite b) (ht : 0 < t) (htb : JSNumber.finite t ≤ k) :
    n * JSNumber.finite t ≤ k * n := by
  subst hk
  rw [jsmul_comm (JSNumber.finite b)]
  exact jsmul_le_jsmul_left hn ht (finite_le_finite.mp htb)

/-! ## The claims -/

/-- C1: for every configuration whose panel type is one of the three of the form, the
nominal daily energy `dailyEnergy` equals
`4 * (efficiency / 100) * voltage * current * panelFactor`, the panel factor being 1, 0.95
and 0.9; with efficiency 18, voltage 12 and current 5 it is 43.2 for Monocrystalline and
38.88 for Thin-Film. -/
theorem dailyEnergy_eq_formula (cfg : Config) (p : PanelType)
    (hp : cfg.panelType = p.label) :
    dailyEnergy cfg
        = lit 4 * (cfg.efficiency / lit 100) * cfg.voltage * cfg.current * panelFactor p ∧
      (cfg.efficiency = lit 18 → cfg.voltage = lit 12 → cfg.current = lit 5 →
        (p = PanelType.Monocrystalline → dailyEnergy cfg = lit 43.2) ∧
        (p = PanelType.ThinFilm → dailyEnergy cfg = lit 38.88)) := by
  have key : dailyEnergy cfg
      = lit 4 * (cfg.efficiency / lit 100) * cfg.voltage * cfg.current * panelFactor p := by
    cases p <;>
      simp [dailyEnergy, baseIrradiance, factor, panelFactor, PanelType.label, hp]
  refine ⟨key, fun he hv hc => ⟨fun h => ?_, fun h => ?_⟩⟩
  · subst h; exact dailyEnergy_of_default he hv hc hp
  · subst h; exact dailyEnergy_of_thinFilm he hv hc hp

theorem dailyEnergy_eq_formula_witness :
    thinFilmConfig.panelType = PanelType.ThinFilm.label ∧
      dailyEnergy thinFilmConfig = lit 38.88 :=
  ⟨rfl, ((dailyEnergy_eq_formula thinFilmConfig PanelType.ThinFilm rfl).2 rfl rfl rfl).2 rfl⟩

/-- C2, as amended: for every configuration with non-negative efficiency, voltage and
current whose nominal daily energy `n` is a number (not `NaN`), and all draws in `[0, 1)`:
every hourly point lies between `toFixed2 (0.9 * n)` and `toFixed2 (1.1 * n)`, every daily
point between `toFixed2 (0.85 * n)` and `toFixed2 (1.15 * n)`, the yearly point of a month
with `d` days between `toFixed2 (0.85 * n * d)` and `toFixed2 (1.15 * n * d)`; for
February, 18, Monocrystalline, 12 V, 5 A every daily point is within `[36.72, 49.68]`. -/
theorem energy_within_envelope (cfg : Config) (rand : ℕ → Draw)
    (he : lit 0 ≤ cfg.efficiency) (hv : lit 0 ≤ cfg.voltage) (hc : lit 0 ≤ cfg.current)
    (hn : dailyEnergy cfg ≠ JSNumber.nan) :
    (∀ p ∈ hourlyData cfg rand,
        toFixed2 (lit 0.9 * dailyEnergy cfg) ≤ p.energy ∧
          p.energy ≤ toFixed2 (lit 1.1 * dailyEnergy cfg)) ∧
      (∀ p ∈ dailyResult cfg rand,
        toFixed2 (lit 0.85 * dailyEnergy cfg) ≤ p.energy ∧
          p.energy ≤ toFixed2 (lit 1.15 * dailyEnergy cfg)) ∧
      (∀ p ∈ yearly cfg rand, ∀ d : ℕ, daysInMonth p.name = some d →
        toFixed2 (lit 0.85 * dailyEnergy cfg * JSNumber.finite d) ≤ p.energy ∧
          p.energy ≤ toFixed2 (lit 1.15 * dailyEnergy cfg * JSNumber.finite d)) ∧
      (cfg.month = "February" → cfg.efficiency = lit 18 → cfg.panelType = "Monocrystalline" →
        cfg.voltage = lit 12 → cfg.current = lit 5 →
        (dailyResult cfg rand).length = 28 ∧
          ∀ p ∈ dailyResult cfg rand, lit 36.72 ≤ p.energy ∧ p.energy ≤ lit 49.68) := by
  have hn0 : JSNumber.finite 0 ≤ dailyEnergy cfg := dailyEnergy_nonneg he hv hc hn
  have daily : ∀ p ∈ dailyResult cfg rand,
      toFixed2 (lit 0.85 * dailyEnergy cfg) ≤ p.energy ∧
        p.energy ≤ toFixed2 (lit 1.15 * dailyEnergy cfg) := by
    intro p hp
    obtain ⟨idx, -, -, hE⟩ := mem_dailyResult hp
    obtain ⟨t, ht, htpos, hlo, hhi⟩ := daily_noise (rand (24 + idx))
    rw [hE, ht]
    exact ⟨toFixed2_mono (literal_mul_le hn0 lit_0_85 (by norm_num) hlo),
      toFixed2_mono (mul_le_literal hn0 lit_1_15 htpos hhi)⟩
  refine ⟨?_, daily, ?_, ?_⟩
  · intro p hp
    obtain ⟨h, -, -, hE⟩ := mem_hourlyData hp
    obtain ⟨t, ht, htpos, hlo, hhi⟩ := hourly_noise (rand h)
    rw [hE, ht]
    exact ⟨toFixed2_mono (literal_mul_le hn0 lit_0_9 (by norm_num) hlo),
      toFixed2_mono (mul_le_literal hn0 lit_1_1 htpos hhi)⟩
  · intro p hp d hd
    have hdpos : (0 : ℚ) < (d : ℚ) := by
      exact_mod_cast daysInMonth_pos (name_mem_months_of_mem_yearly hp) hd
    obtain ⟨k, -, -, hE⟩ := mem_yearlyFrom months _ hp
    obtain ⟨t, ht, htpos, hlo, hhi⟩ :=
      daily_noise (rand (24 + (daysInMonth cfg.month).getD 0 + k))
    rw [hd] at hE
    rw [hE, ht]
    exact ⟨toFixed2_mono
        (jsmul_le_jsmul_right (literal_mul_le hn0 lit_0_85 (by norm_num) hlo) hdpos),
      toFixed2_mono (jsmul_le_jsmul_right (mul_le_literal hn0 lit_1_15 htpos hhi) hdpos)⟩
  · intro hm hE hP hV hC
    have hval : dailyEnergy cfg = lit 43.2 := dailyEnergy_of_default hE hV hC hP
    have hlo : toFixed2 (lit 0.85 * dailyEnergy cfg) = lit 36.72 := by
      rw [hval, lit_43_2, lit_0_85, mul_0_85_nominal, toFixed2_low]
    have hhi : toFixed2 (lit 1.15 * dailyEnergy cfg) = lit 49.68 := by
      rw [hval, lit_43_2, lit_1_15, mul_1_15_nominal, toFixed2_high]
    refine ⟨by simp [dailyResult, length_arrayFrom, hm, daysInMonth], fun p hp => ?_⟩
    have := daily p hp
    rwa [hlo, hhi] at this

theorem energy_within_envelope_witness :
    (lit 0 ≤ februaryConfig.efficiency ∧ dailyEnergy februaryConfig ≠ JSNumber.nan) ∧
      (dailyResult februaryConfig alternatingDraws).length = 28 ∧
      ∀ p ∈ dailyResult februaryConfig alternatingDraws,
        lit 36.72 ≤ p.energy ∧ p.energy ≤ lit 49.68 :=
  have h18 : lit 0 ≤ februaryConfig.efficiency := by
    show lit 0 ≤ lit 18
    rw [lit_zero, lit_eighteen]; exact finite_le_finite.mpr (by norm_num)
  have h12 : lit 0 ≤ februaryConfig.voltage := by
    show lit 0 ≤ lit 12
    rw [lit_zero, lit_twelve]; exact finite_le_finite.mpr (by norm_num)
  have h5 : lit 0 ≤ februaryConfig.current := by
    show lit 0 ≤ lit 5
    rw [lit_zero, lit_five]; exact finite_le_finite.mpr (by norm_num)
  have hn : dailyEnergy februaryConfig ≠ JSNumber.nan := by
    rw [@dailyEnergy_of_default februaryConfig rfl rfl rfl rfl, lit_43_2]
    simp
  ⟨⟨h18, hn⟩,
    (energy_within_envelope februaryConfig alternatingDraws h18 h12 h5 hn).2.2.2
      rfl rfl rfl rfl rfl⟩

/-- C2 as stated fails: efficiency 100, voltage `2 ^ 1023` and current 0 are all
non-negative, yet `4 * 1 * 2 ^ 1023` overflows to `Infinity`, `Infinity * 0` is `NaN`,
every hourly energy is `NaN` and no hourly point lies in the envelope. -/
theorem overflowConfig_energy_not_a_number :
    lit 0 ≤ overflowConfig.efficiency ∧ lit 0 ≤ overflowConfig.voltage ∧
      lit 0 ≤ overflowConfig.current ∧
      dailyEnergy overflowConfig = JSNumber.nan ∧
      (hourlyData overflowConfig zeroDraws).length = 24 ∧
      ∀ p ∈ hourlyData overflowConfig zeroDraws,
        p.energy = JSNumber.nan ∧
          ¬ (toFixed2 (lit 0.9 * dailyEnergy overflowConfig) ≤ p.energy ∧
            p.energy ≤ toFixed2 (lit 1.1 * dailyEnergy overflowConfig)) := by
  refine ⟨?_, ?_, ?_, dailyEnergy_overflowConfig, by simp [hourlyData, length_arrayFrom], ?_⟩
  · show lit 0 ≤ lit 100
    rw [lit_zero, lit_hundred]; exact finite_le_finite.mpr (by norm_num)
  · show lit 0 ≤ JSNumber.finite (2 ^ 1023)
    rw [lit_zero]; exact finite_le_finite.mpr (by positivity)
  · show lit 0 ≤ lit 0
    rw [lit_zero]; exact finite_le_finite.mpr (le_refl 0)
  · intro p hp
    obtain ⟨h, -, -, hE⟩ := mem_hourlyData hp
    have hnan : p.energy = JSNumber.nan := by
      rw [hE, dailyEnergy_overflowConfig, nan_mul]; rfl
    refine ⟨hnan, fun hb => ?_⟩
    rw [hnan] at hb
    exact not_le_nan _ hb.1

/-- C3: for each of the 12 calendar months selected as `month`, whatever the rest of the
configuration and the draws, the daily series has the number of points of the day table
(January 31, February 28, ..., December 31) and its `i`-th point, counted from 0, is
labelled `Day {i+1}`. -/
theorem dailyResult_length_and_labels (cfg : Config) (rand : ℕ → Draw) :
    dayTable.map Prod.fst = months ∧
      ∀ md ∈ dayTable, cfg.month = md.1 →
        (dailyResult cfg rand).length = md.2 ∧
          ∀ i, i < md.2 →
            ((dailyResult cfg rand)[i]?).map EnergyPoint.name
              = some ("Day " ++ toString (i + 1)) := by
  refine ⟨rfl, ?_⟩
  intro md hmd hm
  have hd : daysInMonth cfg.month = some md.2 := by
    simp only [dayTable, List.mem_cons, List.mem_singleton, List.not_mem_nil, or_false] at hmd
    rcases hmd with h | h | h | h | h | h | h | h | h | h | h | h <;>
      (subst h; simp [daysInMonth, hm])
  refine ⟨by simp [dailyResult, length_arrayFrom, hd], fun i hi => ?_⟩
  have hi2 : i < (daysInMonth cfg.month).getD 0 := by simpa [hd] using hi
  simp [dailyResult, getElem?_arrayFrom _ _ hi2]

theorem dailyResult_length_and_labels_witness :
    (dailyResult februaryConfig zeroDraws).length = 28 ∧
      ((dailyResult februaryConfig zeroDraws)[27]?).map EnergyPoint.name = some "Day 28" :=
  have h := (dailyResult_length_and_labels februaryConfig zeroDraws).2
    ("February", 28) (by decide) rfl
  ⟨h.1, h.2 27 (by decide)⟩

/-- C4, as amended: for every configuration and all draws the yearly series has exactly 12
points, labelled January, February, ..., December in calendar order.  The yearly generator
takes its twelve draws after the 24 hourly and the `daysInMonth[month]` daily ones: with
those twelve draws held fixed the yearly series is the same for every value of the selected
month, and with the whole sequence of draws held fixed it is the same for every month with
the same number of days. -/
theorem yearly_twelve_months (cfg : Config) (rand : ℕ → Draw) :
    (yearly cfg rand).length = 12 ∧
      (yearly cfg rand).map EnergyPoint.name
        = ["January", "February", "March", "April", "May", "June",
           "July", "August", "September", "October", "November", "December"] ∧
      (∀ (month2 : String) (rand2 : ℕ → Draw),
        (∀ k, k < 12 →
          (rand2 (24 + (daysInMonth month2).getD 0 + k)).val
            = (rand (24 + (daysInMonth cfg.month).getD 0 + k)).val) →
        yearly { cfg with month := month2 } rand2 = yearly cfg rand) ∧
      (∀ month2 : String, daysInMonth month2 = daysInMonth cfg.month →
        yearly { cfg with month := month2 } rand = yearly cfg rand) := by
  have hnames := yearlyFrom_names cfg rand months (24 + (daysInMonth cfg.month).getD 0)
  have hfix : ∀ (month2 : String) (rand2 : ℕ → Draw),
      (∀ k, k < 12 →
        (rand2 (24 + (daysInMonth month2).getD 0 + k)).val
          = (rand (24 + (daysInMonth cfg.month).getD 0 + k)).val) →
      yearly { cfg with month := month2 } rand2 = yearly cfg rand := by
    intro month2 rand2 h
    exact yearlyFrom_congr cfg { cfg with month := month2 } rand rand2 rfl months _ _ h
  refine ⟨?_, hnames, hfix, ?_⟩
  · have := congrArg List.length hnames
    simpa [yearly, months] using this
  · intro month2 hd
    apply hfix
    intro k _
    show (rand (24 + (daysInMonth month2).getD 0 + k)).val = _
    rw [hd]

theorem yearly_twelve_months_witness :
    yearly { defaultConfig with month := "February" } (fun call => alternatingDraws (call + 3))
      = yearly defaultConfig alternatingDraws :=
  (yearly_twelve_months defaultConfig alternatingDraws).2.2.1 "February"
    (fun call => alternatingDraws (call + 3))
    (fun k _ => by
      have e : 24 + (daysInMonth "February").getD 0 + k + 3
          = 24 + (daysInMonth defaultConfig.month).getD 0 + k := by
        simp [daysInMonth, defaultConfig]; omega
      show (alternatingDraws _).val = _
      rw [e])

/-- C4 as stated fails: with the calls of `Math.random` returning 0, 1/2, 0, 1/2, ... in
both runs, the default configuration gives a yearly series that starts with 1339.2 when
January is selected (the yearly draws start at call 55) and with 1138.32 when February is
selected (they start at call 52). -/
theorem yearly_differs_between_months_on_one_stream :
    februaryConfig = { defaultConfig with month := "February" } ∧
      ((yearly defaultConfig alternatingDraws).head?).map EnergyPoint.energy
        = some (lit 1339.2) ∧
      ((yearly februaryConfig alternatingDraws).head?).map EnergyPoint.energy
        = some (lit 1138.32) ∧
      yearly februaryConfig alternatingDraws ≠ yearly defaultConfig alternatingDraws := by
  have hn : dailyEnergy defaultConfig = lit 43.2 :=
    dailyEnergy_of_default rfl rfl rfl rfl
  have hn2 : dailyEnergy februaryConfig = lit 43.2 :=
    dailyEnergy_of_default rfl rfl rfl rfl
  have hJ : yearly defaultConfig alternatingDraws
      = ⟨"January", toFixed2 (dailyEnergy defaultConfig
            * (JSNumber.finite (1 / 2) * lit 0.3 + lit 0.85) * JSNumber.finite (31 : ℕ))⟩
          :: yearlyFrom defaultConfig alternatingDraws (24 + 31 + 1) months.tail := rfl
  have hF : yearly februaryConfig alternatingDraws
      = ⟨"January", toFixed2 (dailyEnergy februaryConfig
            * (JSNumber.finite 0 * lit 0.3 + lit 0.85) * JSNumber.finite (31 : ℕ))⟩
          :: yearlyFrom februaryConfig alternatingDraws (24 + 28 + 1) months.tail := rfl
  have c31 : ((31 : ℕ) : ℚ) = 31 := by norm_num
  have eJ : toFixed2 (dailyEnergy defaultConfig
      * (JSNumber.finite (1 / 2) * lit 0.3 + lit 0.85) * JSNumber.finite (31 : ℕ))
      = lit 1339.2 := by
    rw [hn, lit_43_2, lit_0_3, mul_half_0_3, lit_0_85, add_half_0_3_0_85, mul_cur_1, c31,
      mul_nominal_31, toFixed2_january_mid]
  have eF : toFixed2 (dailyEnergy februaryConfig
      * (JSNumber.finite 0 * lit 0.3 + lit 0.85) * JSNumber.finite (31 : ℕ))
      = lit 1138.32 := by
    rw [hn2, lit_43_2, lit_0_3, mul_zero_0_3, lit_0_85, add_zero_0_85, mul_nominal_0_85, c31,
      mul_low_31, toFixed2_january_low]
  have h1 : ((yearly defaultConfig alternatingDraws).head?).map EnergyPoint.energy
      = some (lit 1339.2) := by
    rw [hJ, eJ]; rfl
  have h2 : ((yearly februaryConfig alternatingDraws).head?).map EnergyPoint.energy
      = some (lit 1138.32) := by
    rw [hF, eF]; rfl
  refine ⟨rfl, h1, h2, fun h => ?_⟩
  rw [h, h1, lit_1339_2, lit_1138_32] at h2
  exact absurd (JSNumber.finite.inj (Option.some.inj h2)) (by norm_num)

/-- C5: for every configuration and all draws the hourly series has exactly 24 points and
its `h`-th point is labelled `{h}:00`: the labels are `0:00`, `1:00`, ..., `23:00` in that
order. -/
theorem hourlyData_length_and_labels (cfg : Config) (rand : ℕ → Draw) :
    (hourlyData cfg rand).length = 24 ∧
      (∀ h, h < 24 →
        ((hourlyData cfg rand)[h]?).map EnergyPoint.name = some (toString h ++ ":00")) ∧
      (hourlyData cfg rand).map EnergyPoint.name = hourLabels := by
  refine ⟨by simp [hourlyData, length_arrayFrom], fun h hh => ?_, ?_⟩
  · have hh2 : h < (some 24 : Option ℕ).getD 0 := by simpa using hh
    simp [hourlyData, getElem?_arrayFrom _ _ hh2]
  · simp only [hourlyData, arrayFrom, List.map_map, Option.getD_some]
    show (List.range 24).map (fun h => toString h ++ ":00") = hourLabels
    decide

theorem hourlyData_length_and_labels_witness :
    ((hourlyData defaultConfig zeroDraws)[23]?).map EnergyPoint.name = some "23:00" :=
  (hourlyData_length_and_labels defaultConfig zeroDraws).2.1 23 (by decide)

/-- C8, as amended: for every configuration of finite numbers in which the product
`efficiency * voltage * current` is zero or negative (one of the three is zero, or one or
all three of them are negative) and all draws, every generated energy value (hourly, daily
and yearly) is zero or negative, or is `NaN` (a product overflows to an infinity and meets
a zero); the configuration is not rejected: the hourly series still has its 24 points and
the yearly series its 12. -/
theorem energy_nonpos_of_product_nonpos (cfg : Config) (rand : ℕ → Draw) (e v c : ℚ)
    (he : cfg.efficiency = JSNumber.finite e) (hv : cfg.voltage = JSNumber.finite v)
    (hc : cfg.current = JSNumber.finite c) (h : e * v * c ≤ 0) :
    (∀ p ∈ hourlyData cfg rand, p.energy ≤ lit 0 ∨ p.energy = JSNumber.nan) ∧
      (∀ p ∈ dailyResult cfg rand, p.energy ≤ lit 0 ∨ p.energy = JSNumber.nan) ∧
      (∀ p ∈ yearly cfg rand, p.energy ≤ lit 0 ∨ p.energy = JSNumber.nan) ∧
      (hourlyData cfg rand).length = 24 ∧ (yearly cfg rand).length = 12 := by
  have hn : HasSign (dailyEnergy cfg) (e * v * c) :=
    hasSign_dailyEnergy cfg (he ▸ hasSign_finite e) (hv ▸ hasSign_finite v)
      (hc ▸ hasSign_finite c)
  have key : ∀ {x : JSNumber} {s : ℚ}, HasSign x s → s ≤ 0 →
      toFixed2 x ≤ lit 0 ∨ toFixed2 x = JSNumber.nan := by
    intro x s hx hs
    rw [lit_zero]
    rcases hasSign_toFixed2 hx with h1 | ⟨h1, -⟩
    · exact Or.inr h1
    · exact Or.inl (h1 hs)
  refine ⟨?_, ?_, ?_, by simp [hourlyData, length_arrayFrom], ?_⟩
  · intro p hp
    obtain ⟨k, -, -, hE⟩ := mem_hourlyData hp
    obtain ⟨t, ht, htpos, -, -⟩ := hourly_noise (rand k)
    rw [hE, ht]
    exact key (hasSign_mul hn (hasSign_finite t))
      (mul_nonpos_of_nonpos_of_nonneg h htpos.le)
  · intro p hp
    obtain ⟨k, -, -, hE⟩ := mem_dailyResult hp
    obtain ⟨t, ht, htpos, -, -⟩ := daily_noise (rand (24 + k))
    rw [hE, ht]
    exact key (hasSign_mul hn (hasSign_finite t))
      (mul_nonpos_of_nonpos_of_nonneg h htpos.le)
  · intro p hp
    obtain ⟨k, -, -, hE⟩ := mem_yearlyFrom months _ hp
    obtain ⟨t, ht, htpos, -, -⟩ :=
      daily_noise (rand (24 + (daysInMonth cfg.month).getD 0 + k))
    rw [hE]
    cases daysInMonth p.name with
    | none =>
      right
      show toFixed2 (_ * JSNumber.nan) = JSNumber.nan
      rw [mul_nan]; rfl
    | some d =>
      show toFixed2 (_ * _ * JSNumber.finite d) ≤ lit 0 ∨ _
      rw [ht]
      exact key (hasSign_mul (hasSign_mul hn (hasSign_finite t)) (hasSign_finite d))
        (mul_nonpos_of_nonpos_of_nonneg (mul_nonpos_of_nonpos_of_nonneg h htpos.le)
          (Nat.cast_nonneg d))
  · have := congrArg List.length
      (yearlyFrom_names cfg rand months (24 + (daysInMonth cfg.month).getD 0))
    simpa [yearly, months] using this

theorem energy_nonpos_of_product_nonpos_witness :
    (negativeVoltageConfig.voltage = JSNumber.finite (-12) ∧ (18 : ℚ) * (-12) * 5 ≤ 0) ∧
      ∀ p ∈ hourlyData negativeVoltageConfig alternatingDraws,
        p.energy ≤ lit 0 ∨ p.energy = JSNumber.nan :=
  ⟨⟨lit_neg_twelve, by norm_num⟩,
    (energy_nonpos_of_product_nonpos negativeVoltageConfig alternatingDraws 18 (-12) 5
      lit_eighteen lit_neg_twelve lit_five (by norm_num)).1⟩

/-- C8 as stated fails: with efficiency -18 and voltage -12 (current 5, Monocrystalline,
January) and all draws 0, the hourly, daily and yearly series all contain a positive
energy value: 38.88, 36.72 and 1138.32. -/
theorem negativeConfig_positive_energy :
    (negativeConfig.efficiency = lit (-18) ∧ ¬ lit 0 ≤ negativeConfig.efficiency) ∧
      (negativeConfig.voltage = lit (-12) ∧ ¬ lit 0 ≤ negativeConfig.voltage) ∧
      (∃ p ∈ hourlyData negativeConfig zeroDraws,
        p.energy = lit 38.88 ∧ lit 0 ≤ p.energy ∧ ¬ p.energy ≤ lit 0) ∧
      (∃ p ∈ dailyResult negativeConfig zeroDraws,
        p.energy = lit 36.72 ∧ lit 0 ≤ p.energy ∧ ¬ p.energy ≤ lit 0) ∧
      (∃ p ∈ yearly negativeConfig zeroDraws,
        p.energy = lit 1138.32 ∧ lit 0 ≤ p.energy ∧ ¬ p.energy ≤ lit 0) := by
  have hn := dailyEnergy_negativeConfig
  have c31 : ((31 : ℕ) : ℚ) = 31 := by norm_num
  have h1 : toFixed2 (dailyEnergy negativeConfig
      * (JSNumber.finite 0 * lit 0.2 + lit 0.9)) = lit 38.88 := by
    rw [hn, lit_43_2, lit_0_2, mul_zero_0_2, lit_0_9, add_zero_0_9, mul_cur_0_9,
      toFixed2_hourly_low]
  have h2 : toFixed2 (dailyEnergy negativeConfig
      * (JSNumber.finite 0 * lit 0.3 + lit 0.85)) = lit 36.72 := by
    rw [hn, lit_43_2, lit_0_3, mul_zero_0_3, lit_0_85, add_zero_0_85, mul_nominal_0_85,
      toFixed2_low]
  have h3 : toFixed2 (dailyEnergy negativeConfig
      * (JSNumber.finite 0 * lit 0.3 + lit 0.85) * JSNumber.finite (31 : ℕ))
      = lit 1138.32 := by
    rw [hn, lit_43_2, lit_0_3, mul_zero_0_3, lit_0_85, add_zero_0_85, mul_nominal_0_85, c31,
      mul_low_31, toFixed2_january_low]
  have p1 : lit 0 ≤ lit 38.88 ∧ ¬ lit 38.88 ≤ lit 0 := by
    rw [lit_zero, lit_38_88]
    exact ⟨finite_le_finite.mpr (by norm_num),
      fun h => absurd (finite_le_finite.mp h) (by norm_num)⟩
  have p2 : lit 0 ≤ lit 36.72 ∧ ¬ lit 36.72 ≤ lit 0 := by
    rw [lit_zero, lit_36_72]
    exact ⟨finite_le_finite.mpr (by norm_num),
      fun h => absurd (finite_le_finite.mp h) (by norm_num)⟩
  have p3 : lit 0 ≤ lit 1138.32 ∧ ¬ lit 1138.32 ≤ lit 0 := by
    rw [lit_zero, lit_1138_32]
    exact ⟨finite_le_finite.mpr (by norm_num),
      fun h => absurd (finite_le_finite.mp h) (by norm_num)⟩
  have n18 : ¬ lit 0 ≤ lit (-18) := by
    rw [lit_zero, lit_neg_eighteen]
    exact fun h => absurd (finite_le_finite.mp h) (by norm_num)
  have n12 : ¬ lit 0 ≤ lit (-12) := by
    rw [lit_zero, lit_neg_twelve]
    exact fun h => absurd (finite_le_finite.mp h) (by norm_num)
  refine ⟨⟨rfl, n18⟩, ⟨rfl, n12⟩, ?_, ?_, ?_⟩
  · refine ⟨⟨"0:00", lit 38.88⟩, ?_, rfl, p1⟩
    simp only [hourlyData, arrayFrom, List.mem_map, List.mem_range, Option.getD_some]
    exact ⟨0, by norm_num, by rw [← h1]; rfl⟩
  · refine ⟨⟨"Day 1", lit 36.72⟩, ?_, rfl, p2⟩
    simp only [dailyResult, arrayFrom, List.mem_map, List.mem_range]
    exact ⟨0, by decide, by rw [← h2]; rfl⟩
  · refine ⟨⟨"January", lit 1138.32⟩, ?_, rfl, p3⟩
    have : yearly negativeConfig zeroDraws
        = ⟨"January", toFixed2 (dailyEnergy negativeConfig
            * (JSNumber.finite 0 * lit 0.3 + lit 0.85) * JSNumber.finite (31 : ℕ))⟩
          :: yearlyFrom negativeConfig zeroDraws (24 + 31 + 1) months.tail := rfl
    rw [this, h3]
    exact List.mem_cons_self _ _

/-- C10: `country` and `years` take no part in the calculation: for every configuration,
display filters and draws, replacing `country` and `years` by any other values leaves the
hourly, daily and yearly series, and so the state written by the effect and the yearly
view, unchanged point for point. -/
theorem country_years_unused (cfg : Config) (country : String) (years : JSNumber)
    (dailyFilter : String) (rand : ℕ → Draw) :
    hourlyData { cfg with country := country, years := years } rand = hourlyData cfg rand ∧
      dailyResult { cfg with country := country, years := years } rand
        = dailyResult cfg rand ∧
      yearly { cfg with country := country, years := years } rand = yearly cfg rand ∧
      effect { cfg with country := country, years := years } dailyFilter rand
        = effect cfg dailyFilter rand ∧
      ∀ yearlyFilter : String,
        filteredYearlyData
            (effect { cfg with country := country, years := years } dailyFilter rand).yearlyData
            yearlyFilter
          = filteredYearlyData (effect cfg dailyFilter rand).yearlyData yearlyFilter :=
  ⟨rfl, rfl, rfl, rfl, fun _ => rfl⟩

/-- C6: for every yearly series of the generator and every scope `s` other than `Overall`:
if `s` is the `k`-th month name, the yearly view `filteredYearlyData` is the one-element
series made of the generator's `k`-th point, the one labelled `s`; if `s` is not a month
name, the view is the empty series. -/
theorem filteredYearlyData_scope (cfg : Config) (rand : ℕ → Draw) (s : String)
    (hs : s ≠ "Overall") :
    (∀ k : ℕ, months[k]? = some s →
      ∃ p, (yearly cfg rand)[k]? = some p ∧ p.name = s ∧
        filteredYearlyData (yearly cfg rand) s = [p]) ∧
      (s ∈ months → (filteredYearlyData (yearly cfg rand) s).length = 1) ∧
      (s ∉ months → filteredYearlyData (yearly cfg rand) s = []) := by
  have hnames := yearlyFrom_names cfg rand months (24 + (daysInMonth cfg.month).getD 0)
  have hk : ∀ k : ℕ, months[k]? = some s →
      ∃ p, (yearly cfg rand)[k]? = some p ∧ p.name = s ∧
        filteredYearlyData (yearly cfg rand) s = [p] := by
    intro k hk
    have hlt : k < 12 := by
      have := (List.getElem?_eq_some_iff.mp hk).1
      simpa [months] using this
    interval_cases k <;> simp only [months] at hk <;> simp at hk <;> subst hk <;>
      simp [filteredYearlyData, yearly, yearlyFrom, months]
  refine ⟨hk, ?_, ?_⟩
  · intro hmem
    obtain ⟨k, hlt, hkk⟩ := List.getElem_of_mem hmem
    obtain ⟨p, -, -, hp⟩ := hk k (List.getElem?_eq_some_iff.mpr ⟨hlt, hkk⟩)
    rw [hp]; rfl
  · intro hmem
    rw [filteredYearlyData, if_neg hs, List.filter_eq_nil_iff]
    intro p hp
    have : p.name ∈ months := by
      rw [← hnames]
      exact List.mem_map_of_mem _ hp
    have hne : p.name ≠ s := fun e => hmem (e ▸ this)
    simpa using hne

theorem filteredYearlyData_scope_witness :
    (filteredYearlyData (yearly defaultConfig zeroDraws) "March").length = 1 ∧
      filteredYearlyData (yearly defaultConfig zeroDraws) "Spring" = [] :=
  have h := filteredYearlyData_scope defaultConfig zeroDraws
  ⟨(h "March" (by decide)).2.1 (by decide), (h "Spring" (by decide)).2.2 (by decide)⟩

/-- C7: for every non-empty series whose labels contain no comma and no newline, and every
printing of numbers that gives no newline, `exportToCSV` builds a text; split on the
newline, its first line is `name,energy`, there are as many further lines as the series has
points, and line `i + 1` is the name and the energy of point `i` joined by a comma: the
order of the series is kept and no line follows the last point. -/
theorem exportToCSV_lines (numberToString : JSNumber → String) (data : List EnergyPoint)
    (hne : data ≠ []) (hnum : ∀ x, '\n' ∉ (numberToString x).data)
    (hname : ∀ p ∈ data, ',' ∉ p.name.data ∧ '\n' ∉ p.name.data) :
    ∃ csv, exportToCSV numberToString data = Except.ok csv ∧
      split csv '\n'
        = "name,energy" :: data.map (fun p => p.name ++ "," ++ numberToString p.energy) ∧
      (split csv '\n').head? = some "name,energy" ∧
      (split csv '\n').tail.length = data.length ∧
      ∀ (i : ℕ) (p : EnergyPoint), data[i]? = some p →
        (split csv '\n')[i + 1]? = some (p.name ++ "," ++ numberToString p.energy) := by
  obtain ⟨p0, rest, rfl⟩ := List.exists_cons_of_ne_nil hne
  have hrows : ∀ l ∈ ("name,energy" ::
      (p0 :: rest).map (fun p => p.name ++ "," ++ numberToString p.energy)),
      '\n' ∉ l.data := by
    intro l hl
    rcases List.mem_cons.mp hl with rfl | hl
    · decide
    · obtain ⟨p, hp, rfl⟩ := List.mem_map.mp hl
      have h1 := (hname p hp).2
      have h2 := hnum p.energy
      simp [String.data_append, h1, h2]
  have hsplit := split_join_newline _ (List.cons_ne_nil _ _) hrows
  refine ⟨_, rfl, hsplit, ?_, ?_, ?_⟩
  · rw [show join ["name", "energy"] "," = "name,energy" from rfl]
    simp only [join_pair]
    rw [hsplit]; rfl
  · rw [show join ["name", "energy"] "," = "name,energy" from rfl]
    simp only [join_pair]
    rw [hsplit]; simp
  · intro i p hp
    rw [show join ["name", "energy"] "," = "name,energy" from rfl]
    simp only [join_pair]
    rw [hsplit, List.getElem?_cons_succ, List.getElem?_map, hp]
    rfl

theorem exportToCSV_lines_witness :
    ∃ csv, exportToCSV printEnergy sampleSeries = Except.ok csv ∧
      split csv '\n'
        = "name,energy" :: sampleSeries.map (fun p => p.name ++ "," ++ printEnergy p.energy) ∧
      (split csv '\n').head? = some "name,energy" ∧
      (split csv '\n').tail.length = sampleSeries.length ∧
      ∀ (i : ℕ) (p : EnergyPoint), sampleSeries[i]? = some p →
        (split csv '\n')[i + 1]? = some (p.name ++ "," ++ printEnergy p.energy) :=
  exportToCSV_lines printEnergy sampleSeries (by simp [sampleSeries]) printEnergy_no_newline
    (by
      intro p hp
      simp only [sampleSeries, List.mem_cons, List.mem_singleton, List.not_mem_nil,
        or_false] at hp
      rcases hp with rfl | rfl <;> decide)

/-- C9: the export of the empty series fails: `exportToCSV` gives an error, the `TypeError`
of `Object.keys(undefined)`, and gives no text, neither a header alone nor a file without
header. -/
theorem exportToCSV_empty (numberToString : JSNumber → String) :
    (∃ e, exportToCSV numberToString [] = Except.error e) ∧
      ∀ csv, exportToCSV numberToString [] ≠ Except.ok csv :=
  ⟨⟨_, rfl⟩, fun _ h => by simp [exportToCSV] at h⟩

end SolarIrradianceCalculator
